import Mathlib

/-! Chat client (`src/App.jsx`): session, envelope and recording engine.

A shallow embedding of the React component `App`.  Component state (the `useState`
cells and the two `useRef` cells) is a record; every handler of the component is a
function on that record; the browser objects the handlers talk to (the socket, the
recorder, the pending `getUserMedia` promise, the file readers) are kept in the same
record so that a whole run of the page is `step` applied to one event after the other.

Conventions of the embedding:

* an event is handled to completion and the component re-renders before the next one,
  so a handler reads the state left by the previous event; what a callback captured
  when it was created (`type`, `nickname`) is stored with the object that calls it;
* the library functions the handlers call (`trim`, `startsWith`, `split`,
  `JSON.stringify`, `JSON.parse`, `readAsDataURL`, `WebSocket.send`) are written out
  from their standards; strings are sequences of Unicode scalar values;
* `new Date().toISOString()` is an input of the event that reads the clock;
* a read started with `readAsDataURL` completes with the content it was given;
* a handler that can end by raising returns the state it reached together with the
  exception;
* React unmounts `App` when the effect or a render raises: `unmounts` says which events
  end that way and `live` that a run contains none.
-/

namespace Chatbot

/-! ## JavaScript strings -/

/-- ECMAScript `WhiteSpace` and `LineTerminator` code points, the set removed by
`String.prototype.trim`. -/
def isJsWhiteSpace (c : Char) : Bool :=
  c.toNat = 0x9 || c.toNat = 0xA || c.toNat = 0xB || c.toNat = 0xC || c.toNat = 0xD ||
  c.toNat = 0x20 || c.toNat = 0xA0 || c.toNat = 0x1680 ||
  (0x2000 ≤ c.toNat && c.toNat ≤ 0x200A) ||
  c.toNat = 0x2028 || c.toNat = 0x2029 || c.toNat = 0x202F || c.toNat = 0x205F ||
  c.toNat = 0x3000 || c.toNat = 0xFEFF

/-- Characters of `s.trim()`. -/
def trimChars (cs : List Char) : List Char :=
  ((cs.dropWhile isJsWhiteSpace).reverse.dropWhile isJsWhiteSpace).reverse

/-- `String.prototype.trim`. -/
def trim (s : String) : String := ⟨trimChars s.data⟩

/-- `String.prototype.startsWith` on character lists. -/
def startsWithChars : List Char → List Char → Bool
  | _, [] => true
  | [], _ :: _ => false
  | c :: cs, p :: ps => c == p && startsWithChars cs ps

/-- `s.startsWith(p)`. -/
def startsWith (s p : String) : Bool := startsWithChars s.data p.data

/-- `s.split(sep)` for a one-character separator: the pieces between separators. -/
def splitChars (sep : Char) : List Char → List (List Char)
  | [] => [[]]
  | c :: cs =>
    if c = sep then [] :: splitChars sep cs
    else
      match splitChars sep cs with
      | [] => [[c]]
      | p :: ps => (c :: p) :: ps

/-- `s.split(",")[1]`: the second piece, `none` standing for `undefined`. -/
def splitCommaSecond (s : String) : Option String :=
  ((splitChars ',' s.data).get? 1).map String.mk

/-! ## Binary data and the data URL produced by `FileReader.readAsDataURL` -/

/-- One octet. -/
abbrev Byte := Fin 256

/-- The base64 alphabet of RFC 4648. -/
def base64Alphabet : List Char :=
  "ABCDEFGHIJKLMNOPQRSTUVWXYZabcdefghijklmnopqrstuvwxyz0123456789+/".data

/-- The base64 digit for a 6-bit value. -/
def base64Digit (n : Nat) : Char := base64Alphabet.getD (n % 64) 'A'

/-- Base64 with padding. -/
def base64 : List Byte → List Char
  | [] => []
  | [a] =>
    [base64Digit (a.val / 4), base64Digit (a.val % 4 * 16), '=', '=']
  | [a, b] =>
    [base64Digit (a.val / 4), base64Digit (a.val % 4 * 16 + b.val / 16),
     base64Digit (b.val % 16 * 4), '=']
  | a :: b :: c :: rest =>
    base64Digit (a.val / 4) :: base64Digit (a.val % 4 * 16 + b.val / 16) ::
    base64Digit (b.val % 16 * 4 + c.val / 64) :: base64Digit (c.val % 64) :: base64 rest

/-- The media codec's `encode`: binary content as transport-safe text. -/
def encode (bytes : List Byte) : String := ⟨base64 bytes⟩

/-- `reader.result` after `readAsDataURL` of a blob with media type `type`. -/
def readAsDataURL (type : String) (bytes : List Byte) : String :=
  ⟨"data:".data ++ type.data ++ ";base64,".data ++ base64 bytes⟩

/-! ## `JSON.stringify` of the envelopes the component builds -/

/-- Lower-case hexadecimal digit. -/
def hexDigit (n : Nat) : Char := "0123456789abcdef".data.getD (n % 16) '0'

/-- `QuoteJSONString` on one character. -/
def quoteJSONChar (c : Char) : List Char :=
  if c = '"' then ['\\', '"']
  else if c = '\\' then ['\\', '\\']
  else if c.toNat = 0x8 then ['\\', 'b']
  else if c.toNat = 0xC then ['\\', 'f']
  else if c.toNat = 0xA then ['\\', 'n']
  else if c.toNat = 0xD then ['\\', 'r']
  else if c.toNat = 0x9 then ['\\', 't']
  else if c.toNat < 0x20 then ['\\', 'u', '0', '0', hexDigit (c.toNat / 16), hexDigit c.toNat]
  else [c]

/-- `QuoteJSONString`: a string as a JSON string literal. -/
def quoteJSONString (s : String) : List Char :=
  '"' :: (s.data.flatMap quoteJSONChar ++ ['"'])

/-- Serialised members of an object literal whose values are strings or `undefined`;
a member whose value is `undefined` is left out. -/
def stringifyMembers : List (String × Option String) → List (List Char)
  | [] => []
  | (_, none) :: rest => stringifyMembers rest
  | (k, some v) :: rest => (quoteJSONString k ++ ':' :: quoteJSONString v) :: stringifyMembers rest

/-- `JSON.stringify` of an object literal whose values are strings or `undefined`. -/
def stringify (members : List (String × Option String)) : String :=
  ⟨'\x7b' :: ((stringifyMembers members).intersperse [',']).flatten ++ ['\x7d']⟩

/-! ## `JSON.parse` -/

/-- A parsed JSON text.  A number is kept as its literal and an object keeps its members
as written, in order. -/
inductive Json where
  | null
  | bool (b : Bool)
  | num (literal : String)
  | str (s : String)
  | arr (items : List Json)
  | obj (members : List (String × Json))

/-- JSON insignificant whitespace. -/
def isJsonWs (c : Char) : Bool :=
  c.toNat = 0x20 || c.toNat = 0x9 || c.toNat = 0xA || c.toNat = 0xD

/-- Drop leading JSON whitespace. -/
def skipWs (cs : List Char) : List Char := cs.dropWhile isJsonWs

/-- Decimal digit test. -/
def isDigit (c : Char) : Bool := 48 ≤ c.toNat && c.toNat ≤ 57

/-- Value of a hexadecimal digit. -/
def hexVal (c : Char) : Option Nat :=
  if 48 ≤ c.toNat && c.toNat ≤ 57 then some (c.toNat - 48)
  else if 97 ≤ c.toNat && c.toNat ≤ 102 then some (c.toNat - 87)
  else if 65 ≤ c.toNat && c.toNat ≤ 70 then some (c.toNat - 55)
  else none

/-- The character denoted by a one-letter escape. -/
def unescape (e : Char) : Option Char :=
  if e = '"' then some '"'
  else if e = '\\' then some '\\'
  else if e = '/' then some '/'
  else if e = 'b' then some (Char.ofNat 0x8)
  else if e = 'f' then some (Char.ofNat 0xC)
  else if e = 'n' then some (Char.ofNat 0xA)
  else if e = 'r' then some (Char.ofNat 0xD)
  else if e = 't' then some (Char.ofNat 0x9)
  else none

/-- The rest of a string literal after its opening quote: the decoded characters and
what follows the closing quote.  An escape with four hexadecimal digits is read as the
scalar value of that number (the surrogate range, which has none, as U+0000).  The fuel
bounds the characters read. -/
def parseStringBody : Nat → List Char → Option (List Char × List Char)
  | 0, _ => none
  | _ + 1, [] => none
  | fuel + 1, c :: r =>
    if c = '"' then some ([], r)
    else if c = '\\' then
      match r with
      | [] => none
      | e :: r1 =>
        if e = 'u' then
          match r1 with
          | h1 :: h2 :: h3 :: h4 :: r2 =>
            match hexVal h1, hexVal h2, hexVal h3, hexVal h4, parseStringBody fuel r2 with
            | some a, some b, some c2, some d, some (cs, r3) =>
              some (Char.ofNat (((a * 16 + b) * 16 + c2) * 16 + d) :: cs, r3)
            | _, _, _, _, _ => none
          | _ => none
        else
          match unescape e, parseStringBody fuel r1 with
          | some x, some (cs, r3) => some (x :: cs, r3)
          | _, _ => none
    else if c.toNat < 0x20 then none
    else
      match parseStringBody fuel r with
      | some (cs, r3) => some (c :: cs, r3)
      | none => none

/-- A string literal including its opening quote. -/
def parseString (cs : List Char) : Option (String × List Char) :=
  match cs with
  | c :: r =>
    if c = '"' then (parseStringBody (r.length + 1) r).map (fun p => (String.mk p.1, p.2))
    else none
  | [] => none

/-- A non-empty run of digits. -/
def parseDigits (cs : List Char) : Option (List Char × List Char) :=
  match cs.span isDigit with
  | ([], _) => none
  | (ds, r) => some (ds, r)

/-- A number literal: `-? (0 | [1-9][0-9]*) (. [0-9]+)? ([eE] [+-]? [0-9]+)?`. -/
def parseNumber (cs : List Char) : Option (List Char × List Char) :=
  let (sign, cs1) := match cs with
    | c :: r => if c = '-' then ([c], r) else ([], cs)
    | [] => ([], cs)
  let intPart : Option (List Char × List Char) := match cs1 with
    | c :: r => if c = '0' then some ([c], r) else parseDigits cs1
    | [] => none
  match intPart with
  | none => none
  | some (ip, cs2) =>
    let fracPart : Option (List Char × List Char) := match cs2 with
      | c :: r =>
        if c = '.' then (parseDigits r).map (fun p => (c :: p.1, p.2)) else some ([], cs2)
      | [] => some ([], cs2)
    match fracPart with
    | none => none
    | some (fp, cs3) =>
      let expPart : Option (List Char × List Char) := match cs3 with
        | c :: r =>
          if c = 'e' ∨ c = 'E' then
            match r with
            | g :: r1 =>
              if g = '+' ∨ g = '-' then (parseDigits r1).map (fun p => (c :: g :: p.1, p.2))
              else (parseDigits r).map (fun p => (c :: p.1, p.2))
            | [] => none
          else some ([], cs3)
        | [] => some ([], cs3)
      match expPart with
      | none => none
      | some (ep, cs4) => some (sign ++ ip ++ fp ++ ep, cs4)

/-- The elements of an array after the first has been found to exist, up to and
including the closing bracket; `pv` parses one value. -/
def parseElements (pv : List Char → Option (Json × List Char)) :
    Nat → List Char → Option (List Json × List Char)
  | 0, _ => none
  | fuel + 1, cs =>
    match pv cs with
    | none => none
    | some (v, r) =>
      match skipWs r with
      | c :: r1 =>
        if c = ',' then (parseElements pv fuel r1).map (fun p => (v :: p.1, p.2))
        else if c = ']' then some ([v], r1)
        else none
      | [] => none

/-- The members of a non-empty object up to and including the closing brace. -/
def parseMembers (pv : List Char → Option (Json × List Char)) :
    Nat → List Char → Option (List (String × Json) × List Char)
  | 0, _ => none
  | fuel + 1, cs =>
    match parseString (skipWs cs) with
    | none => none
    | some (k, r) =>
      match skipWs r with
      | c :: r1 =>
        if c = ':' then
          match pv r1 with
          | none => none
          | some (v, r2) =>
            match skipWs r2 with
            | d :: r3 =>
              if d = ',' then (parseMembers pv fuel r3).map (fun p => ((k, v) :: p.1, p.2))
              else if d = '\x7d' then some ([(k, v)], r3)
              else none
            | [] => none
        else none
      | [] => none

/-- One JSON value, surrounded by optional leading whitespace. -/
def parseValue : Nat → List Char → Option (Json × List Char)
  | 0, _ => none
  | fuel + 1, cs =>
    match skipWs cs with
    | [] => none
    | c :: r =>
      if c = '\x7b' then
        match skipWs r with
        | d :: r1 =>
          if d = '\x7d' then some (Json.obj [], r1)
          else (parseMembers (parseValue fuel) fuel (d :: r1)).map (fun p => (Json.obj p.1, p.2))
        | [] => none
      else if c = '[' then
        match skipWs r with
        | d :: r1 =>
          if d = ']' then some (Json.arr [], r1)
          else (parseElements (parseValue fuel) fuel (d :: r1)).map (fun p => (Json.arr p.1, p.2))
        | [] => none
      else if c = '"' then (parseString (c :: r)).map (fun p => (Json.str p.1, p.2))
      else if startsWithChars (c :: r) "true".data then some (Json.bool true, r.drop 3)
      else if startsWithChars (c :: r) "false".data then some (Json.bool false, r.drop 4)
      else if startsWithChars (c :: r) "null".data then some (Json.null, r.drop 3)
      else (parseNumber (c :: r)).map (fun p => (Json.num (String.mk p.1), p.2))

/-- `JSON.parse`: `none` stands for the thrown `SyntaxError`.  The fuel, one more than
the length of the text, covers every level of nesting and every element, each of which
takes at least one character. -/
def jsonParse (s : String) : Option Json :=
  match parseValue (s.data.length + 1) s.data with
  | some (v, r) => if skipWs r = [] then some v else none
  | none => none

/-! ## Reading and rendering a chat log entry (lines 158-181) -/

/-- The property `key` of a parsed value other than `null`, for the keys the component
reads (`type`, `nickname`, `message`, `audioData`, `imageData`): the member an object
holds under the key, the last one when the key repeats; `none` stands for `undefined`. -/
def Json.member (msg : Json) (key : String) : Option Json :=
  match msg with
  | Json.obj members => (members.reverse.find? (fun m => m.1 == key)).map (fun m => m.2)
  | _ => none

/-- Whether a property is the string `text` (`msg.type === "audio"`). -/
def isStr (v : Option Json) (text : String) : Bool :=
  match v with
  | some (Json.str t) => t == text
  | _ => false

/-- The number a run of decimal digits denotes. -/
def digitsValue (cs : List Char) : Nat :=
  cs.foldl (fun n c => n * 10 + (c.toNat - 48)) 0

/-- Whether a number literal denotes the double zero: all its digits are zero, or its
value is at most `2 ^ -1075`, half the least positive double, and so rounds to zero. -/
def numberIsZero (literal : List Char) : Bool :=
  let unsigned := match literal with
    | c :: r => if c = '-' then r else literal
    | [] => literal
  let intDigits := unsigned.takeWhile isDigit
  let afterInt := unsigned.dropWhile isDigit
  let fracDigits := match afterInt with
    | c :: r => if c = '.' then r.takeWhile isDigit else []
    | [] => []
  let afterFrac := match afterInt with
    | c :: r => if c = '.' then r.dropWhile isDigit else afterInt
    | [] => afterInt
  let exponent : Int := match afterFrac with
    | _ :: g :: r =>
      if g = '-' then - (digitsValue r : Int)
      else if g = '+' then (digitsValue r : Int)
      else (digitsValue (g :: r) : Int)
    | _ => 0
  let scale : Int := exponent - (fracDigits.length : Int)
  digitsValue (intDigits ++ fracDigits) = 0 ||
    (scale < 0 &&
      digitsValue (intDigits ++ fracDigits) * 2 ^ 1075 ≤ 10 ^ scale.natAbs)

/-- JavaScript truthiness of a property. -/
def truthy : Option Json → Bool
  | none => false
  | some Json.null => false
  | some (Json.bool b) => b
  | some (Json.num literal) => !numberIsZero literal.data
  | some (Json.str t) => !(t == "")
  | some (Json.arr _) => true
  | some (Json.obj _) => true

mutual
/-- Whether React accepts a parsed value as a child: text, numbers, booleans and `null`
are accepted, an array when each element is, a plain object never. -/
def validChild : Json → Bool
  | Json.obj _ => false
  | Json.arr items => validChildren items
  | _ => true
/-- Whether React accepts every element of an array child. -/
def validChildren : List Json → Bool
  | [] => true
  | v :: vs => validChild v && validChildren vs
end

mutual
/-- Whether converting a parsed value to a string, as a template literal does, raises
`TypeError`: an object does when it has a member named `toString` (which is not a
function, and the inherited `valueOf` returns the object), an array when an element
does. -/
def toStringRaises : Json → Bool
  | Json.obj members => members.any (fun m => m.1 == "toString")
  | Json.arr items => anyToStringRaises items
  | _ => false
/-- Whether converting some element of an array to a string raises. -/
def anyToStringRaises : List Json → Bool
  | [] => false
  | v :: vs => toStringRaises v || anyToStringRaises vs
end

/-- Whether React accepts a property as a child; `undefined` renders nothing. -/
def validChildOpt : Option Json → Bool
  | none => true
  | some v => validChild v

/-- Whether a property goes into a template literal without raising. -/
def interpolates : Option Json → Bool
  | none => true
  | some v => !toStringRaises v

/-- Whether the entry of `chatLog.map` (lines 158-181) renders: reading `msg.nickname` of
`null` raises; `msg.nickname` must be a valid child; an `audio` entry with a truthy
`audioData` renders `msg.message` as a child and puts `audioData` in a template literal;
otherwise an `image` entry with a truthy `imageData` puts `imageData` in a template
literal; any other entry renders `msg.message` as a child. -/
def rendersEntry (msg : Json) : Bool :=
  match msg with
  | Json.null => false
  | _ =>
    validChildOpt (msg.member "nickname") &&
      (if isStr (msg.member "type") "audio" && truthy (msg.member "audioData") then
        validChildOpt (msg.member "message") && interpolates (msg.member "audioData")
      else if isStr (msg.member "type") "image" && truthy (msg.member "imageData") then
        interpolates (msg.member "imageData")
      else validChildOpt (msg.member "message"))

/-- A string, a number, a boolean or `null`. -/
def isScalar : Json → Bool
  | Json.arr _ => false
  | Json.obj _ => false
  | _ => true

/-- An envelope: a JSON object each of whose members is a string, a number, a boolean
or `null`. -/
def isEnvelope : Json → Bool
  | Json.obj members => members.all (fun m => isScalar m.2)
  | _ => false

/-- A well-formed inbound message: a text that decodes to an envelope. -/
def wellFormed (data : String) : Bool :=
  match jsonParse data with
  | some v => isEnvelope v
  | none => false

/-! ## Browser objects -/

/-- Exceptions a handler of the component can raise. -/
inductive JsError where
  | SyntaxError
  | TypeError
  | InvalidStateError
  deriving DecidableEq

/-- `WebSocket.readyState`. -/
inductive ReadyState where
  | CONNECTING
  | OPEN
  | CLOSING
  | CLOSED
  deriving DecidableEq

/-- A socket: the address it was constructed with, its ready state, every argument its
`send` method was called with, and the frames that went onto the transport. -/
structure WebSocket where
  url : String
  readyState : ReadyState
  sendCalls : List String
  wire : List String
  deriving DecidableEq

/-- `WebSocket.send`: raises `InvalidStateError` while connecting, transmits when open,
and discards the data without raising when closing or closed. -/
def WebSocket.send (sock : WebSocket) (data : String) : WebSocket × Option JsError :=
  match sock.readyState with
  | ReadyState.CONNECTING =>
    ({ sock with sendCalls := sock.sendCalls ++ [data] }, some JsError.InvalidStateError)
  | ReadyState.OPEN =>
    ({ sock with sendCalls := sock.sendCalls ++ [data], wire := sock.wire ++ [data] }, none)
  | _ => ({ sock with sendCalls := sock.sendCalls ++ [data] }, none)

/-- `WebSocket.close`. -/
def WebSocket.close (sock : WebSocket) : WebSocket :=
  match sock.readyState with
  | ReadyState.CLOSED => sock
  | _ => { sock with readyState := ReadyState.CLOSING }

/-- `MediaRecorder.state`; the component never pauses a recorder. -/
inductive RecorderState where
  | inactive
  | recording
  deriving DecidableEq

/-- A recorder together with what its two handlers captured when `startRecording` ran
(`type` and the `nickname` of that render).  `stopQueued` says that the recorder has been
inactivated and its final `dataavailable` and `stop` events are still to be dispatched. -/
structure MediaRecorder where
  type : String
  nickname : String
  state : RecorderState
  stopQueued : Bool
  deriving DecidableEq

/-- `MediaRecorder.stop` and the recorder ending on its own: the state becomes
`inactive` at once and the `stop` event is queued. -/
def MediaRecorder.stop (r : MediaRecorder) : MediaRecorder :=
  { r with state := RecorderState.inactive, stopQueued := true }

/-- A file picked in the file input: the media type the browser reports for it (a
well-formed media type or the empty string, so without a comma) and its content. -/
structure File where
  type : String
  bytes : List Byte
  typeOk : type.data.contains ',' = false
  deriving DecidableEq

/-- A pending `getUserMedia` promise with what its callbacks captured. -/
structure MicRequest where
  type : String
  nickname : String
  deriving DecidableEq

/-- A `FileReader` whose read is in progress, with what its handler captured. -/
inductive Reader where
  | image (nickname : String) (file : File)
  | audio (nickname : String) (type : String) (blob : List Byte)
  deriving DecidableEq

/-- How a `getUserMedia` promise and the `then` callback chained on it end. -/
inductive MicOutcome where
  | rejected
  | recorderFailed
  | startFailed
  | started
  deriving DecidableEq

/-! ## Component state -/

/-- The state of `App`: the `useState` cells, the refs `audioChunks` and `ws`, and the
browser-side bookkeeping (`connections`: the address of every socket constructed;
`micRequests`: pending microphone requests; `readers`: reads in progress). -/
structure State where
  nickname : String
  inputNickname : String
  message : String
  chatLog : List Json
  imageFile : Option File
  mediaRecorder : Option MediaRecorder
  isRecording : Bool
  recordingType : String
  audioChunks : List (List Byte)
  ws : Option WebSocket
  connections : List String
  micRequests : List MicRequest
  readers : List Reader

/-- The state after the first render. -/
def State.init : State :=
  { nickname := "", inputNickname := "", message := "", chatLog := [], imageFile := none,
    mediaRecorder := none, isRecording := false, recordingType := "", audioChunks := [],
    ws := none, connections := [], micRequests := [], readers := [] }

/-- What running a handler leaves behind: the state reached and the exception, if any,
that left the handler. -/
structure Outcome where
  state : State
  thrown : Option JsError

/-! ## Handlers -/

/-- `ws.current.onmessage` (lines 22-31): `JSON.parse` raises on malformed data before
anything is done; otherwise the append is requested and then `data.type` is read, which
raises `TypeError` when the parsed value is `null`. -/
def onmessage (s : State) (data : String) : Outcome :=
  match jsonParse data with
  | none => { state := s, thrown := some JsError.SyntaxError }
  | some Json.null =>
    { state := { s with chatLog := s.chatLog ++ [Json.null] }, thrown := some JsError.TypeError }
  | some d => { state := { s with chatLog := s.chatLog ++ [d] }, thrown := none }

/-- The body of `useEffect(..., [nickname])` (lines 19-37).  `new WebSocket(url)` raises
`SyntaxError` when the address has a fragment, which is when the nickname contains `#`;
`ws.current` is then not assigned. -/
def connectEffect (s : State) : Outcome :=
  if s.nickname = "" then { state := s, thrown := none }
  else if '#' ∈ s.nickname.data then { state := s, thrown := some JsError.SyntaxError }
  else
    { state :=
        { s with
          ws := some { url := "ws://localhost:8000/ws/" ++ s.nickname,
                       readyState := ReadyState.CONNECTING, sendCalls := [], wire := [] },
          connections := s.connections ++ ["ws://localhost:8000/ws/" ++ s.nickname] },
      thrown := none }

/-- The cleanup the effect returns, `() => ws.current?.close()` (line 37). -/
def connectCleanup (s : State) : State :=
  { s with ws := s.ws.map WebSocket.close }

/-- `setNickname(v)` followed by the render: an unchanged value causes no render; a
changed one runs the cleanup of the previous effect run, when that run returned one,
and then the effect. -/
def setNickname (s : State) (v : String) : Outcome :=
  if v = s.nickname then { state := s, thrown := none }
  else
    connectEffect
      { (if s.nickname = "" then s else connectCleanup s) with nickname := v }

/-- The Enter key and the Enter button of the nickname form (lines 151, 153). -/
def submitNickname (s : State) : Outcome :=
  setNickname s (trim s.inputNickname)

/-- `sendMessage` (lines 44-69).  The socket is open where `send` is reached, so `send`
raises nothing there. -/
def sendMessage (s : State) : State :=
  if trim s.message = "" then s
  else
    match s.ws with
    | none => s
    | some sock =>
      if sock.readyState ≠ ReadyState.OPEN then s
      else if startsWith s.message "@tts" then
        { s with
          ws := some (sock.send (stringify [("type", some "text"), ("nickname", some s.nickname),
            ("message", some (trim s.message))])).1,
          message := "" }
      else
        { s with
          ws := some (sock.send (stringify [("type", some "text"), ("nickname", some s.nickname),
            ("message", some (trim s.message))])).1,
          message := "" }

/-- `sendImage` (lines 71-88) up to `reader.readAsDataURL(imageFile)`. -/
def sendImage (s : State) : State :=
  match s.imageFile with
  | none => s
  | some f =>
    if trim s.nickname = "" then s
    else { s with readers := s.readers ++ [Reader.image s.nickname f] }

/-- The `reader.onload` handler of `sendImage` (lines 75-86); `now` is
`new Date().toISOString()`. -/
def imageOnload (s : State) (nickname : String) (f : File) (now : String) : Outcome :=
  match s.ws with
  | none => { state := { s with imageFile := none }, thrown := none }
  | some sock =>
    match sock.send (stringify [("type", some "image"), ("nickname", some nickname),
        ("imageData", splitCommaSecond (readAsDataURL f.type f.bytes)),
        ("timestamp", some now)]) with
    | (sock1, some e) => { state := { s with ws := some sock1 }, thrown := some e }
    | (sock1, none) => { state := { s with ws := some sock1, imageFile := none }, thrown := none }

/-- `startRecording` (lines 90-133) up to the `getUserMedia` call. -/
def startRecording (s : State) (type : String) : State :=
  if s.isRecording then s
  else
    { s with
      recordingType := type, isRecording := true, audioChunks := [],
      micRequests := s.micRequests ++ [{ type := type, nickname := s.nickname }] }

/-- The `catch` callback (lines 129-132). -/
def micCatch (s : State) : State :=
  { s with isRecording := false }

/-- The `then` callback (lines 98-128) followed, when the promise was rejected or the
callback raised, by the `catch` callback. -/
def micSettled (s : State) (req : MicRequest) : MicOutcome → State
  | MicOutcome.rejected => micCatch s
  | MicOutcome.recorderFailed => micCatch s
  | MicOutcome.startFailed =>
    micCatch
      { s with
        mediaRecorder := some
          { type := req.type, nickname := req.nickname, state := RecorderState.inactive,
            stopQueued := false } }
  | MicOutcome.started =>
    { s with
      mediaRecorder := some
        { type := req.type, nickname := req.nickname, state := RecorderState.recording,
          stopQueued := false } }

/-- `recorder.ondataavailable` (lines 102-104). -/
def ondataavailable (s : State) (chunk : List Byte) : State :=
  if chunk.length > 0 then { s with audioChunks := s.audioChunks ++ [chunk] } else s

/-- `recorder.onstop` (lines 106-125) up to `reader.readAsDataURL(blob)` and
`setIsRecording(false)`; the blob is the concatenation of the chunks held then. -/
def onstop (s : State) (r : MediaRecorder) : State :=
  { s with
    readers := s.readers ++ [Reader.audio r.nickname r.type s.audioChunks.flatten],
    isRecording := false }

/-- The `reader.onloadend` handler of `recorder.onstop` (lines 109-122). -/
def audioOnloadend (s : State) (nickname type : String) (blob : List Byte) (now : String) :
    Outcome :=
  match s.ws with
  | none => { state := s, thrown := some JsError.TypeError }
  | some sock =>
    match sock.send (stringify [("type", some "audio"), ("nickname", some nickname),
        ("message", some (if type = "stt" then "@stt" else "@talk")),
        ("audioData", splitCommaSecond (readAsDataURL "audio/webm" blob)),
        ("timestamp", some now)]) with
    | (sock1, e) => { state := { s with ws := some sock1 }, thrown := e }

/-- `stopRecording` (lines 135-139). -/
def stopRecording (s : State) : State :=
  match s.mediaRecorder with
  | none => s
  | some r =>
    if r.state ≠ RecorderState.inactive then { s with mediaRecorder := some r.stop } else s

/-! ## Runs of the page -/

/-- What can happen to the page: a user action or a browser callback. -/
inductive Event where
  | setInputNickname (v : String)
  | submitNickname
  | setMessage (v : String)
  | sendMessage
  | setImageFile (f : Option File)
  | sendImage
  | startRecording (type : String)
  | stopRecording
  | socketOpened
  | socketClosed
  | message (data : String)
  | micSettled (o : MicOutcome)
  | dataavailable (chunk : List Byte)
  | trackEnded
  | recorderStopped
  | readerDone (i : Nat) (now : String)

/-- Whether handling the event ends with React unmounting `App`: an exception raised by
the effect, or a new chat log entry that does not render (the entries already in the log
have rendered before). -/
def unmounts (s : State) : Event → Bool
  | Event.submitNickname => (submitNickname s).thrown.isSome
  | Event.message data =>
    match jsonParse data with
    | some v => !rendersEntry v
    | none => false
  | _ => false

/-- The cleanup React runs when it unmounts `App`: the one the last effect run returned,
if it returned one. -/
def unmountCleanup (s : State) : State :=
  if s.nickname = "" then s else connectCleanup s

/-- One event.  A user action runs its handler whatever the `disabled` attributes say,
and an inbound message runs `onmessage`; a recorder, promise or reader callback that
cannot be dispatched in the state at hand leaves the state alone.  An exception that
leaves a handler is reported by the browser and the state the handler had reached
stays.  Where the event unmounts `App` (see `unmounts`) the state is the one the page
ends in. -/
def step (s : State) : Event → State
  | Event.setInputNickname v => { s with inputNickname := v }
  | Event.submitNickname => (submitNickname s).state
  | Event.setMessage v => { s with message := v }
  | Event.sendMessage => sendMessage s
  | Event.setImageFile f => { s with imageFile := f }
  | Event.sendImage => sendImage s
  | Event.startRecording type => startRecording s type
  | Event.stopRecording => stopRecording s
  | Event.socketOpened =>
    match s.ws with
    | some sock =>
      if sock.readyState = ReadyState.CONNECTING then
        { s with ws := some { sock with readyState := ReadyState.OPEN } }
      else s
    | none => s
  | Event.socketClosed =>
    { s with ws := s.ws.map (fun sock => { sock with readyState := ReadyState.CLOSED }) }
  | Event.message data =>
    if unmounts s (Event.message data) = true then unmountCleanup (onmessage s data).state
    else (onmessage s data).state
  | Event.micSettled o =>
    match s.micRequests with
    | [] => s
    | req :: rest => micSettled { s with micRequests := rest } req o
  | Event.dataavailable chunk =>
    match s.mediaRecorder with
    | some r =>
      if r.state = RecorderState.recording ∨ r.stopQueued = true then ondataavailable s chunk
      else s
    | none => s
  | Event.trackEnded =>
    match s.mediaRecorder with
    | some r =>
      if r.state = RecorderState.recording then { s with mediaRecorder := some r.stop } else s
    | none => s
  | Event.recorderStopped =>
    match s.mediaRecorder with
    | some r =>
      if r.stopQueued = true then
        onstop { s with mediaRecorder := some { r with stopQueued := false } } r
      else s
    | none => s
  | Event.readerDone i now =>
    match s.readers.get? i with
    | none => s
    | some (Reader.image nickname f) =>
      (imageOnload { s with readers := s.readers.eraseIdx i } nickname f now).state
    | some (Reader.audio nickname type blob) =>
      (audioOnloadend { s with readers := s.readers.eraseIdx i } nickname type blob now).state

/-- The frames that have gone onto the transport of the current socket. -/
def transmitted (s : State) : List String :=
  match s.ws with
  | some sock => sock.wire
  | none => []

/-- The arguments of every `send` call made on the current socket. -/
def sendCalls (s : State) : List String :=
  match s.ws with
  | some sock => sock.sendCalls
  | none => []

/-- The data of the inbound `message` events of a run, in delivery order. -/
def inbound : List Event → List String
  | [] => []
  | Event.message data :: es => data :: inbound es
  | _ :: es => inbound es

/-- A run: the events handled one after the other, up to and including the first one
that unmounts `App`; what is delivered after that is not followed. -/
def run : State → List Event → State
  | s, [] => s
  | s, e :: es => if unmounts s e = true then step s e else run (step s e) es

/-- Whether `App` stays mounted through the whole run. -/
def live : State → List Event → Bool
  | _, [] => true
  | s, e :: es => !unmounts s e && live (step s e) es

/-- An event other than an inbound message and a submission of the nickname form; such
an event never unmounts `App`. -/
def quiet : Event → Bool
  | Event.message _ => false
  | Event.submitNickname => false
  | _ => true

/-- The states the mounted page can be in: those a run from the initial state ends in
with `App` still mounted. -/
def Reachable (s : State) : Prop :=
  ∃ es, live State.init es = true ∧ run State.init es = s

/-! ## Observations, scenarios and the recorder invariant -/

/-- The state after `alice` has joined, the socket has opened and `  hi ` was typed. -/
def aliceTyped : State :=
  run State.init [Event.setInputNickname " alice ", Event.submitNickname, Event.socketOpened,
    Event.setMessage "  hi "]

/-- A run in which two messages arrive around user actions. -/
def chatRun : List Event :=
  [Event.setInputNickname "alice", Event.submitNickname, Event.socketOpened,
   Event.message "\x7b\"type\":\"text\",\"nickname\":\"bob\",\"message\":\"hi\"\x7d",
   Event.setMessage "yo", Event.sendMessage, Event.startRecording "talk",
   Event.message ("\x7b\"type\":\"audio\",\"nickname\":\"bot\",\"message\":\"hello\"," ++
     "\"audioData\":\"AQID\"\x7d"),
   Event.stopRecording]

/-- The state after `alice` has joined and the socket has opened. -/
def aliceOpen : State :=
  run State.init [Event.setInputNickname "alice", Event.submitNickname, Event.socketOpened]

/-- The events of one recording: the request, its grant, the chunks delivered while
recording, the stop, the chunks delivered with the stop, the recorder's `stop` event and
the completion of read number `i` at time `now`. -/
def recordingSession (purpose : String) (cs1 cs2 : List (List Byte)) (i : Nat)
    (now : String) : List Event :=
  [Event.startRecording purpose, Event.micSettled MicOutcome.started] ++
    cs1.map Event.dataavailable ++ [Event.stopRecording] ++ cs2.map Event.dataavailable ++
    [Event.recorderStopped, Event.readerDone i now]

/-- The audio envelope as serialised for `send`. -/
def audioEnvelope (nickname purpose : String) (content : List Byte) (now : String) : String :=
  stringify [("type", some "audio"), ("nickname", some nickname),
    ("message", some (if purpose = "stt" then "@stt" else "@talk")),
    ("audioData", some (encode content)), ("timestamp", some now)]

/-- The image envelope as serialised for `send`. -/
def imageEnvelope (nickname : String) (f : File) (now : String) : String :=
  stringify [("type", some "image"), ("nickname", some nickname),
    ("imageData", some (encode f.bytes)), ("timestamp", some now)]

/-- A two-byte file reported as `image/png`. -/
def pngFile : File := { type := "image/png", bytes := [137, 80], typeOk := by decide }

/-- The state after `alice` has joined, the connection has opened and closed again, and
a file has been picked. -/
def aliceClosedWithImage : State :=
  run State.init [Event.setInputNickname "alice", Event.submitNickname, Event.socketOpened,
    Event.socketClosed, Event.setImageFile (some pngFile)]

/-- The state after `alice` has joined, the connection has opened and a file has been
picked. -/
def aliceOpenWithImage : State :=
  run State.init [Event.setInputNickname "alice", Event.submitNickname, Event.socketOpened,
    Event.setImageFile (some pngFile)]

/-- The state after `alice` has recorded three bytes for a conversational message, the
connection has closed meanwhile, and the recorder's `stop` event has been handled: the
read of the recording is in progress. -/
def aliceClosedAfterRecording : State :=
  run State.init [Event.setInputNickname "alice", Event.submitNickname, Event.socketOpened,
    Event.startRecording "talk", Event.micSettled MicOutcome.started,
    Event.dataavailable [1, 2, 3], Event.socketClosed, Event.stopRecording,
    Event.recorderStopped]

/-- A recorder has been started and not yet stopped. -/
def capturing (s : State) : Prop :=
  ∃ r, s.mediaRecorder = some r ∧ r.state = RecorderState.recording

/-- A recorder has been stopped and its `stop` event has not been handled yet. -/
def stopping (s : State) : Prop :=
  ∃ r, s.mediaRecorder = some r ∧ r.stopQueued = true

/-- What holds of the recorder fields in every state the page can be in. -/
structure RecorderInv (s : State) : Prop where
  queued_inactive : ∀ r, s.mediaRecorder = some r → r.stopQueued = true →
    r.state = RecorderState.inactive
  busy_recording : ∀ r, s.mediaRecorder = some r →
    (r.state = RecorderState.recording ∨ r.stopQueued = true) →
    s.isRecording = true ∧ s.micRequests = []
  pending_recording : s.micRequests ≠ [] → s.isRecording = true
  pending_le_one : s.micRequests.length ≤ 1

/-- The state after `alice` has dictated three bytes, stopped, and the recorder's `stop`
event has been handled: the read of the recording is in progress and its envelope has
not been handed to the connection. -/
def aliceFinalising : State :=
  run State.init [Event.setInputNickname "alice", Event.submitNickname, Event.socketOpened,
    Event.startRecording "stt", Event.micSettled MicOutcome.started,
    Event.dataavailable [1, 2, 3], Event.stopRecording, Event.recorderStopped]

/-! ## Facts about the string and codec helpers -/

theorem string_mk_eq_empty (cs : List Char) : String.mk cs = "" ↔ cs = [] := by
  constructor
  · intro h
    have h2 := congrArg String.data h
    simpa using h2
  · intro h
    subst h
    rfl

/-- `trim` yields the empty string exactly on strings made of whitespace only. -/
theorem trim_eq_empty_iff (s : String) :
    trim s = "" ↔ ∀ c ∈ s.data, isJsWhiteSpace c = true := by
  unfold trim trimChars
  rw [string_mk_eq_empty, List.reverse_eq_nil_iff, List.dropWhile_eq_nil_iff]
  constructor
  · intro h
    rw [← List.dropWhile_eq_nil_iff]
    by_contra hne
    have hhead := List.head_dropWhile_not isJsWhiteSpace s.data hne
    have hmem := h _ (List.mem_reverse.mpr (List.head_mem hne))
    simp [hmem] at hhead
  · intro h x hx
    have hnil : List.dropWhile isJsWhiteSpace s.data = [] := List.dropWhile_eq_nil_iff.mpr h
    rw [hnil] at hx
    simp at hx

theorem splitChars_of_not_mem (sep : Char) (l : List Char) (h : sep ∉ l) :
    splitChars sep l = [l] := by
  induction l with
  | nil => rfl
  | cons c cs ih =>
    have hc : c ≠ sep := fun e => h (by simp [e])
    have hcs : sep ∉ cs := fun m => h (List.mem_cons_of_mem _ m)
    simp [splitChars, hc, ih hcs]

theorem splitChars_append_sep (sep : Char) (l r : List Char) (h : sep ∉ l) :
    splitChars sep (l ++ sep :: r) = l :: splitChars sep r := by
  induction l with
  | nil => simp [splitChars]
  | cons c cs ih =>
    have hc : c ≠ sep := fun e => h (by simp [e])
    have hcs : sep ∉ cs := fun m => h (List.mem_cons_of_mem _ m)
    simp [splitChars, hc, ih hcs]

theorem base64Digit_ne_comma (n : Nat) : base64Digit n ≠ ',' := by
  have key : ∀ i : Fin 64, base64Alphabet.getD i.val 'A' ≠ ',' := by decide
  exact key ⟨n % 64, Nat.mod_lt _ (by decide)⟩

theorem comma_not_mem_base64 (bytes : List Byte) : ',' ∉ base64 bytes := by
  induction bytes using base64.induct with
  | case1 => simp [base64]
  | case2 a =>
    simp only [base64, List.mem_cons, List.mem_singleton, not_or, List.not_mem_nil, or_false]
    exact ⟨(base64Digit_ne_comma _).symm, (base64Digit_ne_comma _).symm, by decide, by decide⟩
  | case3 a b =>
    simp only [base64, List.mem_cons, List.mem_singleton, not_or, List.not_mem_nil, or_false]
    exact ⟨(base64Digit_ne_comma _).symm, (base64Digit_ne_comma _).symm,
      (base64Digit_ne_comma _).symm, by decide⟩
  | case4 a b c rest ih =>
    simp only [base64, List.mem_cons, not_or]
    exact ⟨(base64Digit_ne_comma _).symm, (base64Digit_ne_comma _).symm,
      (base64Digit_ne_comma _).symm, (base64Digit_ne_comma _).symm, ih⟩

/-- The second comma-separated piece of a data URL is the base64 text of the content,
whenever the media type has no comma. -/
theorem splitCommaSecond_readAsDataURL (type : String) (bytes : List Byte)
    (h : type.data.contains ',' = false) :
    splitCommaSecond (readAsDataURL type bytes) = some (encode bytes) := by
  have hty : ',' ∉ type.data := by
    intro hm
    have : type.data.contains ',' = true := by simpa using hm
    rw [h] at this
    exact Bool.noConfusion this
  have hpre : ',' ∉ "data:".data ++ type.data ++ ";base64".data := by
    simp only [List.mem_append, not_or]
    exact ⟨⟨by decide, hty⟩, by decide⟩
  have hsplit : "data:".data ++ type.data ++ ";base64,".data ++ base64 bytes
      = ("data:".data ++ type.data ++ ";base64".data) ++ ',' :: base64 bytes := by
    have : ";base64,".data = ";base64".data ++ [','] := by decide
    rw [this]
    simp [List.append_assoc]
  unfold splitCommaSecond readAsDataURL encode
  simp only
  rw [hsplit, splitChars_append_sep _ _ _ hpre,
    splitChars_of_not_mem _ _ (comma_not_mem_base64 bytes)]
  rfl

/-- Empty chunks contribute nothing to the concatenation. -/
theorem flatten_filter_nonempty (cs : List (List Byte)) :
    (cs.filter (fun c => decide (c.length > 0))).flatten = cs.flatten := by
  induction cs with
  | nil => rfl
  | cons c cs ih =>
    cases c with
    | nil => simpa [List.filter] using ih
    | cons b bs => simp [List.filter, ih]

/-! ## Outbound text -/

/-- C1: with the connection open, `sendMessage` transmits if and only if the trimmed
message is non-empty; it then puts exactly one frame on the transport, the envelope
`type: "text"`, `nickname`, `message: message.trim()`, and clears the input, the same
whether or not the message starts with `@tts`; with an empty trimmed message nothing is
sent and the state is unchanged. -/
theorem sendMessage_transmits_trimmed_text (s : State) (sock : WebSocket)
    (hws : s.ws = some sock) (hopen : sock.readyState = ReadyState.OPEN) :
    (trim s.message ≠ "" ↔ transmitted (sendMessage s) ≠ transmitted s) ∧
    (trim s.message ≠ "" →
      transmitted (sendMessage s) = transmitted s ++
        [stringify [("type", some "text"), ("nickname", some s.nickname),
          ("message", some (trim s.message))]] ∧
      sendMessage s =
        { s with
          ws := some
            { sock with
              sendCalls := sock.sendCalls ++
                [stringify [("type", some "text"), ("nickname", some s.nickname),
                  ("message", some (trim s.message))]],
              wire := sock.wire ++
                [stringify [("type", some "text"), ("nickname", some s.nickname),
                  ("message", some (trim s.message))]] },
          message := "" }) ∧
    (trim s.message = "" → sendMessage s = s) := by
  have hempty : trim s.message = "" → sendMessage s = s := by
    intro h
    simp [sendMessage, h]
  have hsent : trim s.message ≠ "" →
      sendMessage s =
        { s with
          ws := some
            { sock with
              sendCalls := sock.sendCalls ++
                [stringify [("type", some "text"), ("nickname", some s.nickname),
                  ("message", some (trim s.message))]],
              wire := sock.wire ++
                [stringify [("type", some "text"), ("nickname", some s.nickname),
                  ("message", some (trim s.message))]] },
          message := "" } := by
    intro h
    by_cases htts : startsWith s.message "@tts" = true <;>
      simp [sendMessage, h, hws, hopen, htts, WebSocket.send]
  have hwire : trim s.message ≠ "" →
      transmitted (sendMessage s) = transmitted s ++
        [stringify [("type", some "text"), ("nickname", some s.nickname),
          ("message", some (trim s.message))]] := by
    intro h
    rw [hsent h]
    simp [transmitted, hws]
  refine ⟨⟨fun h => ?_, fun h => ?_⟩, fun h => ⟨hwire h, hsent h⟩, hempty⟩
  · rw [hwire h]
    intro heq
    have := congrArg List.length heq
    simp at this
  · intro he
    exact h (by rw [hempty he])

/-- C1 at a concrete state: `  hi ` typed by `alice` on an open connection. -/
theorem sendMessage_transmits_trimmed_text_witness :
    aliceTyped.ws = some (WebSocket.mk "ws://localhost:8000/ws/alice" ReadyState.OPEN [] []) ∧
    transmitted (sendMessage aliceTyped) =
      ["\x7b\"type\":\"text\",\"nickname\":\"alice\",\"message\":\"hi\"\x7d"] := by
  refine ⟨by decide, ?_⟩
  have h := (sendMessage_transmits_trimmed_text aliceTyped
    (WebSocket.mk "ws://localhost:8000/ws/alice" ReadyState.OPEN [] [])
    (by decide) (by decide)).2.1 (by decide)
  rw [h.1]
  decide

/-! ## The chat log -/

theorem chatLog_sendMessage (s : State) : (sendMessage s).chatLog = s.chatLog := by
  unfold sendMessage
  repeat' split
  all_goals rfl

theorem chatLog_sendImage (s : State) : (sendImage s).chatLog = s.chatLog := by
  unfold sendImage
  repeat' split
  all_goals rfl

theorem chatLog_submitNickname (s : State) :
    (submitNickname s).state.chatLog = s.chatLog := by
  unfold submitNickname setNickname connectEffect connectCleanup
  repeat' split
  all_goals rfl

theorem chatLog_startRecording (s : State) (type : String) :
    (startRecording s type).chatLog = s.chatLog := by
  unfold startRecording
  split <;> rfl

theorem chatLog_stopRecording (s : State) : (stopRecording s).chatLog = s.chatLog := by
  unfold stopRecording
  repeat' split
  all_goals rfl

theorem chatLog_imageOnload (s : State) (n : String) (f : File) (now : String) :
    (imageOnload s n f now).state.chatLog = s.chatLog := by
  unfold imageOnload
  repeat' split
  all_goals rfl

theorem chatLog_audioOnloadend (s : State) (n t : String) (b : List Byte) (now : String) :
    (audioOnloadend s n t b now).state.chatLog = s.chatLog := by
  unfold audioOnloadend
  repeat' split
  all_goals rfl

/-- One event appends the decoded data of an inbound message and otherwise leaves the
chat log alone. -/
theorem chatLog_step (s : State) (e : Event) :
    (step s e).chatLog = s.chatLog ++ (inbound [e]).filterMap jsonParse := by
  cases e with
  | message data =>
    have hm : (onmessage s data).state.chatLog = s.chatLog ++ (jsonParse data).toList := by
      unfold onmessage
      split <;> simp [*]
    have hc : ∀ t : State, (unmountCleanup t).chatLog = t.chatLog := by
      intro t
      unfold unmountCleanup connectCleanup
      split <;> rfl
    simp only [step, inbound]
    split
    · rw [hc, hm]
      cases hp : jsonParse data <;> simp [hp]
    · rw [hm]
      cases hp : jsonParse data <;> simp [hp]
  | submitNickname => simpa [step, inbound] using chatLog_submitNickname s
  | sendMessage => simpa [step, inbound] using chatLog_sendMessage s
  | sendImage => simpa [step, inbound] using chatLog_sendImage s
  | startRecording type => simpa [step, inbound] using chatLog_startRecording s type
  | stopRecording => simpa [step, inbound] using chatLog_stopRecording s
  | micSettled o =>
    simp only [step, inbound, List.filterMap_nil, List.append_nil]
    split
    · rfl
    · cases o <;> rfl
  | dataavailable chunk =>
    simp only [step, inbound, List.filterMap_nil, List.append_nil, ondataavailable]
    repeat' split
    all_goals rfl
  | readerDone i now =>
    simp only [step, inbound, List.filterMap_nil, List.append_nil]
    split
    · rfl
    · exact chatLog_imageOnload _ _ _ _
    · exact chatLog_audioOnloadend _ _ _ _ _
  | setInputNickname v => simp [step, inbound]
  | setMessage v => simp [step, inbound]
  | setImageFile f => simp [step, inbound]
  | socketOpened =>
    simp only [step, inbound, List.filterMap_nil, List.append_nil]
    repeat' split
    all_goals rfl
  | socketClosed => simp [step, inbound]
  | trackEnded =>
    simp only [step, inbound, List.filterMap_nil, List.append_nil]
    repeat' split
    all_goals rfl
  | recorderStopped =>
    simp only [step, inbound, List.filterMap_nil, List.append_nil, onstop]
    repeat' split
    all_goals rfl

theorem inbound_cons (e : Event) (es : List Event) :
    inbound (e :: es) = inbound [e] ++ inbound es := by
  cases e <;> simp [inbound]

theorem unmounts_of_quiet (s : State) (e : Event) (h : quiet e = true) :
    unmounts s e = false := by
  cases e <;> first | rfl | exact absurd h (by simp [quiet])

/-- A run that keeps the page mounted handles every one of its events. -/
theorem run_of_live (s : State) (es : List Event) (h : live s es = true) :
    run s es = es.foldl step s := by
  induction es generalizing s with
  | nil => rfl
  | cons e es ih =>
    simp only [live, Bool.and_eq_true, Bool.not_eq_true'] at h
    simp only [run, h.1, Bool.false_eq_true, if_false, List.foldl_cons]
    exact ih _ h.2

theorem live_of_quiet (s : State) (es : List Event) (h : ∀ e ∈ es, quiet e = true) :
    live s es = true := by
  induction es generalizing s with
  | nil => rfl
  | cons e es ih =>
    simp only [live, unmounts_of_quiet s e (h e (List.mem_cons_self _ _)), Bool.not_false,
      Bool.true_and]
    exact ih _ (fun x hx => h x (List.mem_cons_of_mem _ hx))

/-- A run without inbound messages and nickname submissions handles every one of its
events. -/
theorem run_of_quiet (s : State) (es : List Event) (h : ∀ e ∈ es, quiet e = true) :
    run s es = es.foldl step s :=
  run_of_live s es (live_of_quiet s es h)

/-- Handling events one after the other appends the decoded inbound data to the chat
log and changes nothing else of it. -/
theorem chatLog_foldl_step (s : State) (es : List Event) :
    (es.foldl step s).chatLog = s.chatLog ++ (inbound es).filterMap jsonParse := by
  induction es generalizing s with
  | nil => simp [inbound]
  | cons e es ih =>
    rw [List.foldl_cons, ih, chatLog_step, inbound_cons e es, List.filterMap_append,
      List.append_assoc]

/-- After a run that keeps the page mounted the chat log is the log before followed by
the decoded inbound data. -/
theorem chatLog_run (s : State) (es : List Event) (h : live s es = true) :
    (run s es).chatLog = s.chatLog ++ (inbound es).filterMap jsonParse := by
  rw [run_of_live s es h, chatLog_foldl_step]

/-- Decoding a list of well-formed data drops none of them. -/
theorem filterMap_jsonParse_of_wellFormed (ds : List String)
    (hwf : ∀ d ∈ ds, (jsonParse d).isSome = true) :
    (ds.filterMap jsonParse).map some = ds.map jsonParse := by
  induction ds with
  | nil => rfl
  | cons d ds ih =>
    have hd := hwf d (List.mem_cons_self _ _)
    have hds : ∀ x ∈ ds, (jsonParse x).isSome = true :=
      fun x hx => hwf x (List.mem_cons_of_mem _ hx)
    cases hp : jsonParse d with
    | none => simp [hp] at hd
    | some v => simp [List.filterMap_cons, hp, ih hds]

/-- An envelope has, under every key, a scalar or nothing. -/
theorem member_of_isEnvelope (v : Json) (h : isEnvelope v = true) (key : String) :
    v.member key = none ∨ ∃ w, v.member key = some w ∧ isScalar w = true := by
  cases v with
  | obj members =>
    simp only [Json.member]
    cases hf : members.reverse.find? (fun m => m.1 == key) with
    | none => exact Or.inl rfl
    | some m =>
      right
      have hmem : m ∈ members := List.mem_reverse.mp (List.mem_of_find?_eq_some hf)
      have hall : ∀ x ∈ members, isScalar x.2 = true := by
        have h1 := h
        simp only [isEnvelope, List.all_eq_true] at h1
        exact h1
      exact ⟨m.2, rfl, hall m hmem⟩
  | null => simp [isEnvelope] at h
  | bool b => simp [isEnvelope] at h
  | num l => simp [isEnvelope] at h
  | str t => simp [isEnvelope] at h
  | arr l => simp [isEnvelope] at h

theorem validChild_of_isScalar (w : Json) (h : isScalar w = true) : validChild w = true := by
  cases w <;> first | rfl | simp [isScalar] at h

theorem toStringRaises_of_isScalar (w : Json) (h : isScalar w = true) :
    toStringRaises w = false := by
  cases w <;> first | rfl | simp [isScalar] at h

/-- An envelope renders. -/
theorem rendersEntry_of_isEnvelope (v : Json) (h : isEnvelope v = true) :
    rendersEntry v = true := by
  have hchild : ∀ key, validChildOpt (v.member key) = true := by
    intro key
    rcases member_of_isEnvelope v h key with hn | ⟨w, hw, hs⟩
    · rw [hn]; rfl
    · rw [hw]; exact validChild_of_isScalar w hs
  have hinter : ∀ key, interpolates (v.member key) = true := by
    intro key
    rcases member_of_isEnvelope v h key with hn | ⟨w, hw, hs⟩
    · rw [hn]; rfl
    · rw [hw]; simp [interpolates, toStringRaises_of_isScalar w hs]
  cases v with
  | obj members =>
    simp only [rendersEntry, hchild, hinter, Bool.and_self, Bool.true_and]
    split
    · rfl
    · split <;> rfl
  | null => simp [isEnvelope] at h
  | bool b => simp [isEnvelope] at h
  | num l => simp [isEnvelope] at h
  | str t => simp [isEnvelope] at h
  | arr l => simp [isEnvelope] at h

/-- A well-formed message decodes and does not unmount the page. -/
theorem wellFormed_accepted (s : State) (d : String) (h : wellFormed d = true) :
    (jsonParse d).isSome = true ∧ unmounts s (Event.message d) = false := by
  unfold wellFormed at h
  cases hp : jsonParse d with
  | none => simp [hp] at h
  | some v =>
    rw [hp] at h
    simp only at h
    simp [unmounts, hp, rendersEntry_of_isEnvelope v h]

theorem not_mem_trimChars (c : Char) (cs : List Char) (h : c ∉ cs) : c ∉ trimChars cs := by
  intro hm
  unfold trimChars at hm
  have h1 := List.mem_reverse.mp hm
  have h2 := (List.dropWhile_sublist isJsWhiteSpace).subset h1
  have h3 := List.mem_reverse.mp h2
  exact h ((List.dropWhile_sublist isJsWhiteSpace).subset h3)

/-- A nickname form without `#` is submitted without the effect raising. -/
theorem submitNickname_not_thrown (s : State) (h : '#' ∉ s.inputNickname.data) :
    (submitNickname s).thrown = none := by
  have ht : '#' ∉ (trim s.inputNickname).data := not_mem_trimChars _ _ h
  by_cases h1 : trim s.inputNickname = s.nickname
  · simp [submitNickname, setNickname, h1]
  · by_cases h2 : trim s.inputNickname = ""
    · have h3 : ¬ ("" = s.nickname) := by
        rw [h2] at h1
        exact h1
      simp [submitNickname, setNickname, connectEffect, h2, h3]
    · simp [submitNickname, setNickname, connectEffect, h1, h2, ht]

/-- Only typing in the nickname form changes `inputNickname`. -/
theorem inputNickname_step (s : State) (e : Event) (h : ∀ v, e ≠ Event.setInputNickname v) :
    (step s e).inputNickname = s.inputNickname := by
  cases e with
  | setInputNickname v => exact absurd rfl (h v)
  | submitNickname =>
    simp only [step, submitNickname, setNickname, connectEffect, connectCleanup]
    repeat' split
    all_goals rfl
  | setMessage v => rfl
  | sendMessage =>
    simp only [step, sendMessage]
    repeat' split
    all_goals rfl
  | setImageFile f => rfl
  | sendImage =>
    simp only [step, sendImage]
    repeat' split
    all_goals rfl
  | startRecording type =>
    simp only [step, startRecording]
    repeat' split
    all_goals rfl
  | stopRecording =>
    simp only [step, stopRecording]
    repeat' split
    all_goals rfl
  | socketOpened =>
    simp only [step]
    repeat' split
    all_goals rfl
  | socketClosed => rfl
  | message data =>
    simp only [step, onmessage, unmountCleanup, connectCleanup]
    repeat' split
    all_goals rfl
  | micSettled o =>
    simp only [step]
    split
    · rfl
    · cases o <;> rfl
  | dataavailable chunk =>
    simp only [step, ondataavailable]
    repeat' split
    all_goals rfl
  | trackEnded =>
    simp only [step]
    repeat' split
    all_goals rfl
  | recorderStopped =>
    simp only [step, onstop]
    repeat' split
    all_goals rfl
  | readerDone i now =>
    simp only [step, imageOnload, audioOnloadend]
    repeat' split
    all_goals rfl

/-- A run in which no nickname typed contains `#` and every inbound message is
well-formed keeps the page mounted. -/
theorem live_of_clean_inputs (s : State) (es : List Event)
    (hnick : '#' ∉ s.inputNickname.data)
    (htyped : ∀ v, Event.setInputNickname v ∈ es → '#' ∉ v.data)
    (hwf : ∀ d ∈ inbound es, wellFormed d = true) :
    live s es = true := by
  induction es generalizing s with
  | nil => rfl
  | cons e es ih =>
    have hwf1 : ∀ d ∈ inbound es, wellFormed d = true := by
      intro d hd
      apply hwf
      rw [inbound_cons]
      exact List.mem_append_right _ hd
    have htyped1 : ∀ v, Event.setInputNickname v ∈ es → '#' ∉ v.data :=
      fun v hv => htyped v (List.mem_cons_of_mem _ hv)
    have hun : unmounts s e = false := by
      cases e with
      | message data =>
        exact (wellFormed_accepted s data (hwf data (by simp [inbound]))).2
      | submitNickname => simp [unmounts, submitNickname_not_thrown s hnick]
      | setInputNickname v => rfl
      | setMessage v => rfl
      | sendMessage => rfl
      | setImageFile f => rfl
      | sendImage => rfl
      | startRecording type => rfl
      | stopRecording => rfl
      | socketOpened => rfl
      | socketClosed => rfl
      | micSettled o => rfl
      | dataavailable chunk => rfl
      | trackEnded => rfl
      | recorderStopped => rfl
      | readerDone i now => rfl
    have hnick1 : '#' ∉ (step s e).inputNickname.data := by
      by_cases he : ∃ v, e = Event.setInputNickname v
      · obtain ⟨v, rfl⟩ := he
        exact htyped v (List.mem_cons_self _ _)
      · rw [inputNickname_step s e (fun v hv => he ⟨v, hv⟩)]
        exact hnick
    simp only [live, hun, Bool.not_false, Bool.true_and]
    exact ih (step s e) hnick1 htyped1 hwf1

/-- C2: in every run whose inbound messages are all well-formed (each decodes to an
envelope) and in which no nickname typed contains `#`, whatever other events the run
consists of, the page stays mounted and the chat log afterwards is the chat log before
followed by the decoded inbound messages, one entry per message and in delivery order;
from the initial state it is exactly that sequence. -/
theorem chatLog_is_inbound_in_order (s : State) (es : List Event)
    (hnick : '#' ∉ s.inputNickname.data)
    (htyped : ∀ v, Event.setInputNickname v ∈ es → '#' ∉ v.data)
    (hwf : ∀ d ∈ inbound es, wellFormed d = true) :
    live s es = true ∧
    (run s es).chatLog = s.chatLog ++ (inbound es).filterMap jsonParse ∧
    ((inbound es).filterMap jsonParse).map some = (inbound es).map jsonParse ∧
    live State.init es = true ∧
    (run State.init es).chatLog.map some = (inbound es).map jsonParse := by
  have hsome : ∀ d ∈ inbound es, (jsonParse d).isSome = true :=
    fun d hd => (wellFormed_accepted s d (hwf d hd)).1
  have hlive := live_of_clean_inputs s es hnick htyped hwf
  have hlive0 := live_of_clean_inputs State.init es (by decide) htyped hwf
  refine ⟨hlive, chatLog_run s es hlive, filterMap_jsonParse_of_wellFormed _ hsome,
    hlive0, ?_⟩
  rw [chatLog_run State.init es hlive0, ← filterMap_jsonParse_of_wellFormed _ hsome]
  rfl

/-- C2 on `chatRun`: both messages are in the log, in delivery order. -/
theorem chatLog_is_inbound_in_order_witness :
    '#' ∉ State.init.inputNickname.data ∧
    (∀ v, Event.setInputNickname v ∈ chatRun → '#' ∉ v.data) ∧
    (∀ d ∈ inbound chatRun, wellFormed d = true) ∧
    (run State.init chatRun).chatLog.map some =
      [some (Json.obj [("type", Json.str "text"), ("nickname", Json.str "bob"),
        ("message", Json.str "hi")]),
       some (Json.obj [("type", Json.str "audio"), ("nickname", Json.str "bot"),
        ("message", Json.str "hello"), ("audioData", Json.str "AQID")])] := by
  have hnick : '#' ∉ State.init.inputNickname.data := by decide
  have htyped : ∀ v, Event.setInputNickname v ∈ chatRun → '#' ∉ v.data := by
    intro v hv
    simp only [chatRun, List.mem_cons, Event.setInputNickname.injEq, reduceCtorEq,
      List.mem_singleton, or_false, List.not_mem_nil] at hv
    subst hv
    decide
  have hwf : ∀ d ∈ inbound chatRun, wellFormed d = true := by decide
  refine ⟨hnick, htyped, hwf, ?_⟩
  rw [(chatLog_is_inbound_in_order State.init chatRun hnick htyped hwf).2.2.2.2]
  rfl

/-! ## Malformed inbound data -/

/-- C8, as stated, fails: on the malformed text consisting of one opening brace the
handler does not swallow the failure, it ends by raising `SyntaxError`. -/
theorem onmessage_malformed_not_swallowed :
    jsonParse "\x7b" = none ∧
    (onmessage aliceOpen "\x7b").thrown = some JsError.SyntaxError := by
  exact ⟨rfl, rfl⟩

/-- C8, amended: on data that fails to decode the handler raises `SyntaxError` (nothing in
the handler catches it) having changed no state field, so the log and the connection are
as before and the page stays mounted, and well-formed messages delivered afterwards are
appended in order. -/
theorem onmessage_malformed_raises_and_keeps_state (s : State) (d : String) (ds : List String)
    (hbad : jsonParse d = none) (hwf : ∀ x ∈ ds, wellFormed x = true) :
    (onmessage s d).thrown = some JsError.SyntaxError ∧
    (onmessage s d).state = s ∧
    unmounts s (Event.message d) = false ∧
    step s (Event.message d) = s ∧
    live s (Event.message d :: ds.map Event.message) = true ∧
    (run s (Event.message d :: ds.map Event.message)).chatLog =
      s.chatLog ++ ds.filterMap jsonParse ∧
    (ds.filterMap jsonParse).map some = ds.map jsonParse := by
  have hun : unmounts s (Event.message d) = false := by simp [unmounts, hbad]
  have hstep : step s (Event.message d) = s := by simp [step, hun, onmessage, hbad]
  have hin : ∀ l : List String, inbound (l.map Event.message) = l := by
    intro l
    induction l with
    | nil => rfl
    | cons x xs ih =>
      simp only [List.map_cons, inbound]
      rw [ih]
  have hsome : ∀ x ∈ ds, (jsonParse x).isSome = true :=
    fun x hx => (wellFormed_accepted s x (hwf x hx)).1
  have hlive : live s (ds.map Event.message) = true := by
    have key : ∀ (l : List String) (t : State), (∀ x ∈ l, wellFormed x = true) →
        live t (l.map Event.message) = true := by
      intro l
      induction l with
      | nil => intro t _; rfl
      | cons x xs ih =>
        intro t hl
        have hx := (wellFormed_accepted t x (hl x (List.mem_cons_self _ _))).2
        simp only [List.map_cons, live, hx, Bool.not_false, Bool.true_and]
        exact ih _ (fun y hy => hl y (List.mem_cons_of_mem _ hy))
    exact key ds s hwf
  refine ⟨by simp [onmessage, hbad], by simp [onmessage, hbad], hun, hstep, ?_, ?_,
    filterMap_jsonParse_of_wellFormed _ hsome⟩
  · simp only [live, hun, Bool.not_false, Bool.true_and, hstep]
    exact hlive
  · have hrun : run s (Event.message d :: ds.map Event.message)
        = run (step s (Event.message d)) (ds.map Event.message) := by
      simp only [run, hun, Bool.false_eq_true, if_false]
    rw [hrun, hstep, chatLog_run _ _ hlive, hin]

/-- C8 amended, at a concrete input: a malformed text followed by a well-formed one. -/
theorem onmessage_malformed_raises_and_keeps_state_witness :
    jsonParse "\x7b" = none ∧
    (∀ x ∈ ["\x7b\"message\":\"ok\"\x7d"], wellFormed x = true) ∧
    (run aliceOpen (Event.message "\x7b" ::
      ["\x7b\"message\":\"ok\"\x7d"].map Event.message)).chatLog =
      aliceOpen.chatLog ++ ["\x7b\"message\":\"ok\"\x7d"].filterMap jsonParse := by
  have hbad : jsonParse "\x7b" = none := rfl
  have hwf : ∀ x ∈ ["\x7b\"message\":\"ok\"\x7d"], wellFormed x = true := by decide
  exact ⟨hbad, hwf,
    (onmessage_malformed_raises_and_keeps_state aliceOpen "\x7b"
      ["\x7b\"message\":\"ok\"\x7d"] hbad hwf).2.2.2.2.2.1⟩

/-! ## Opening the connection -/

/-- C7, as stated, fails: the text `a#b` is not blank, yet submitting it creates no
connection: the `WebSocket` constructor raises `SyntaxError` on the fragment, the
identity is set to `a#b`, no socket exists and `App` is unmounted. -/
theorem submitNickname_fragment_creates_no_connection :
    trim "a#b" = "a#b" ∧
    (submitNickname (step State.init (Event.setInputNickname "a#b"))).thrown =
      some JsError.SyntaxError ∧
    (submitNickname (step State.init (Event.setInputNickname "a#b"))).state.nickname = "a#b" ∧
    (submitNickname (step State.init (Event.setInputNickname "a#b"))).state.connections = [] ∧
    (submitNickname (step State.init (Event.setInputNickname "a#b"))).state.ws = none ∧
    unmounts (step State.init (Event.setInputNickname "a#b")) Event.submitNickname = true := by
  refine ⟨by decide, by decide, by decide, by decide, by decide, by decide⟩

/-- C7, amended: with the identity still unset, submitting the nickname form creates a
connection if and only if the entered text is not blank and, trimmed, contains no `#`;
blank text leaves the whole state, the unset identity included, as it was; text that is
not blank and has no `#` sets the identity to the trimmed text and constructs exactly
one socket, addressed to `ws://localhost:8000/ws/` followed by that identity; text with
a `#` sets the identity, the constructor raises `SyntaxError` and no socket is
constructed. -/
theorem submitNickname_connects_iff_not_blank_no_fragment (s : State)
    (hunset : s.nickname = "") :
    (trim s.inputNickname = "" ↔ ∀ c ∈ s.inputNickname.data, isJsWhiteSpace c = true) ∧
    ((submitNickname s).state.connections ≠ s.connections ↔
      (trim s.inputNickname ≠ "" ∧ '#' ∉ (trim s.inputNickname).data)) ∧
    (trim s.inputNickname = "" → submitNickname s = { state := s, thrown := none }) ∧
    (trim s.inputNickname ≠ "" → '#' ∉ (trim s.inputNickname).data →
      submitNickname s =
        { state :=
            { s with
              nickname := trim s.inputNickname,
              ws := some (WebSocket.mk ("ws://localhost:8000/ws/" ++ trim s.inputNickname)
                ReadyState.CONNECTING [] []),
              connections := s.connections ++
                ["ws://localhost:8000/ws/" ++ trim s.inputNickname] },
          thrown := none }) ∧
    (trim s.inputNickname ≠ "" → '#' ∈ (trim s.inputNickname).data →
      submitNickname s =
        { state := { s with nickname := trim s.inputNickname },
          thrown := some JsError.SyntaxError }) := by
  have hblank : trim s.inputNickname = "" →
      submitNickname s = { state := s, thrown := none } := by
    intro h
    simp [submitNickname, setNickname, h, hunset]
  have hconn : trim s.inputNickname ≠ "" → '#' ∉ (trim s.inputNickname).data →
      submitNickname s =
        { state :=
            { s with
              nickname := trim s.inputNickname,
              ws := some (WebSocket.mk ("ws://localhost:8000/ws/" ++ trim s.inputNickname)
                ReadyState.CONNECTING [] []),
              connections := s.connections ++
                ["ws://localhost:8000/ws/" ++ trim s.inputNickname] },
          thrown := none } := by
    intro h hf
    simp [submitNickname, setNickname, connectEffect, h, hunset, hf]
  have hfrag : trim s.inputNickname ≠ "" → '#' ∈ (trim s.inputNickname).data →
      submitNickname s =
        { state := { s with nickname := trim s.inputNickname },
          thrown := some JsError.SyntaxError } := by
    intro h hf
    simp [submitNickname, setNickname, connectEffect, h, hunset, hf]
  refine ⟨trim_eq_empty_iff _, ⟨fun h => ?_, fun h => ?_⟩, hblank, hconn, hfrag⟩
  · by_cases hb : trim s.inputNickname = ""
    · exact absurd (by rw [hblank hb]) h
    · refine ⟨hb, fun hf => h ?_⟩
      rw [hfrag hb hf]
  · rw [hconn h.1 h.2]
    intro heq
    have := congrArg List.length heq
    simp at this

/-- C7 amended, at a concrete input: ` alice ` entered in the initial state. -/
theorem submitNickname_connects_iff_not_blank_no_fragment_witness :
    (step State.init (Event.setInputNickname " alice ")).nickname = "" ∧
    (submitNickname (step State.init (Event.setInputNickname " alice "))).state.connections =
      ["ws://localhost:8000/ws/alice"] := by
  refine ⟨rfl, ?_⟩
  rw [(submitNickname_connects_iff_not_blank_no_fragment
    (step State.init (Event.setInputNickname " alice ")) rfl).2.2.2.1 (by decide) (by decide)]
  decide

/-! ## The recorder invariant -/

theorem recorderInv_init : RecorderInv State.init := by
  constructor <;> simp [State.init]

/-- The invariant only reads `mediaRecorder`, `isRecording` and `micRequests`. -/
theorem recorderInv_of_same (s t : State) (h : RecorderInv s)
    (h1 : t.mediaRecorder = s.mediaRecorder) (h2 : t.isRecording = s.isRecording)
    (h3 : t.micRequests = s.micRequests) : RecorderInv t := by
  obtain ⟨a, b, c, d⟩ := h
  constructor
  · rw [h1]; exact a
  · rw [h1, h2, h3]; exact b
  · rw [h2, h3]; exact c
  · rw [h3]; exact d

theorem recorder_fields_sendMessage (s : State) :
    (sendMessage s).mediaRecorder = s.mediaRecorder ∧
    (sendMessage s).isRecording = s.isRecording ∧
    (sendMessage s).micRequests = s.micRequests := by
  unfold sendMessage
  repeat' split
  all_goals exact ⟨rfl, rfl, rfl⟩

theorem recorder_fields_sendImage (s : State) :
    (sendImage s).mediaRecorder = s.mediaRecorder ∧
    (sendImage s).isRecording = s.isRecording ∧
    (sendImage s).micRequests = s.micRequests := by
  unfold sendImage
  repeat' split
  all_goals exact ⟨rfl, rfl, rfl⟩

theorem recorder_fields_submitNickname (s : State) :
    (submitNickname s).state.mediaRecorder = s.mediaRecorder ∧
    (submitNickname s).state.isRecording = s.isRecording ∧
    (submitNickname s).state.micRequests = s.micRequests := by
  unfold submitNickname setNickname connectEffect connectCleanup
  repeat' split
  all_goals exact ⟨rfl, rfl, rfl⟩

theorem recorder_fields_onmessage (s : State) (data : String) :
    (onmessage s data).state.mediaRecorder = s.mediaRecorder ∧
    (onmessage s data).state.isRecording = s.isRecording ∧
    (onmessage s data).state.micRequests = s.micRequests := by
  unfold onmessage
  split <;> exact ⟨rfl, rfl, rfl⟩

theorem recorder_fields_unmountCleanup (s : State) :
    (unmountCleanup s).mediaRecorder = s.mediaRecorder ∧
    (unmountCleanup s).isRecording = s.isRecording ∧
    (unmountCleanup s).micRequests = s.micRequests := by
  unfold unmountCleanup connectCleanup
  split <;> exact ⟨rfl, rfl, rfl⟩

theorem recorder_fields_imageOnload (s : State) (n : String) (f : File) (now : String) :
    (imageOnload s n f now).state.mediaRecorder = s.mediaRecorder ∧
    (imageOnload s n f now).state.isRecording = s.isRecording ∧
    (imageOnload s n f now).state.micRequests = s.micRequests := by
  unfold imageOnload
  repeat' split
  all_goals exact ⟨rfl, rfl, rfl⟩

theorem recorder_fields_audioOnloadend (s : State) (n t : String) (b : List Byte)
    (now : String) :
    (audioOnloadend s n t b now).state.mediaRecorder = s.mediaRecorder ∧
    (audioOnloadend s n t b now).state.isRecording = s.isRecording ∧
    (audioOnloadend s n t b now).state.micRequests = s.micRequests := by
  unfold audioOnloadend
  repeat' split
  all_goals exact ⟨rfl, rfl, rfl⟩

theorem recorderInv_startRecording (s : State) (type : String) (h : RecorderInv s) :
    RecorderInv (startRecording s type) := by
  unfold startRecording
  by_cases hr : s.isRecording = true
  · rw [if_pos hr]
    exact h
  · rw [if_neg hr]
    have hreq : s.micRequests = [] := by
      by_contra hne
      exact hr (h.pending_recording hne)
    constructor
    · exact h.queued_inactive
    · intro r hmr hb
      exact absurd (h.busy_recording r hmr hb).1 hr
    · intro _
      rfl
    · simp [hreq]

theorem recorderInv_inactivate (s : State) (r : MediaRecorder) (h : RecorderInv s)
    (hmr : s.mediaRecorder = some r) (hrec : r.state = RecorderState.recording) :
    RecorderInv { s with mediaRecorder := some r.stop } := by
  have hb := h.busy_recording r hmr (Or.inl hrec)
  constructor
  · intro r1 h1 _
    simp only [Option.some.injEq] at h1
    subst h1
    rfl
  · intro _ _ _
    exact hb
  · exact h.pending_recording
  · exact h.pending_le_one

theorem recorderInv_micSettled (s : State) (o : MicOutcome) (h : RecorderInv s) :
    RecorderInv (step s (Event.micSettled o)) := by
  simp only [step]
  cases hq : s.micRequests with
  | nil => exact h
  | cons req rest =>
    have hne : s.micRequests ≠ [] := by simp [hq]
    have hrec : s.isRecording = true := h.pending_recording hne
    have hrest : rest = [] := by
      have hl := h.pending_le_one
      rw [hq] at hl
      simp only [List.length_cons] at hl
      exact List.length_eq_zero.mp (by omega)
    have hidle : ∀ r, s.mediaRecorder = some r →
        ¬ (r.state = RecorderState.recording ∨ r.stopQueued = true) := by
      intro r hmr hb
      exact hne (h.busy_recording r hmr hb).2
    subst hrest
    cases o with
    | rejected =>
      constructor
      · exact h.queued_inactive
      · intro r hmr hb
        exact absurd hb (hidle r hmr)
      · intro hc
        exact absurd rfl hc
      · simp [micSettled, micCatch]
    | recorderFailed =>
      constructor
      · exact h.queued_inactive
      · intro r hmr hb
        exact absurd hb (hidle r hmr)
      · intro hc
        exact absurd rfl hc
      · simp [micSettled, micCatch]
    | startFailed =>
      constructor
      · intro r hmr hqd
        simp only [micSettled, micCatch, Option.some.injEq] at hmr
        subst hmr
        rfl
      · intro r hmr hb
        simp only [micSettled, micCatch, Option.some.injEq] at hmr
        subst hmr
        simp at hb
      · intro hc
        exact absurd rfl hc
      · simp [micSettled, micCatch]
    | started =>
      constructor
      · intro r hmr hqd
        simp only [micSettled, Option.some.injEq] at hmr
        subst hmr
        simp at hqd
      · intro r hmr hb
        exact ⟨hrec, rfl⟩
      · intro hc
        exact absurd rfl hc
      · simp [micSettled]

theorem recorderInv_recorderStopped (s : State) (h : RecorderInv s) :
    RecorderInv (step s Event.recorderStopped) := by
  simp only [step]
  cases hmr : s.mediaRecorder with
  | none => exact h
  | some r =>
    by_cases hqd : r.stopQueued = true
    · simp only [hqd, if_true]
      have hin := h.queued_inactive r hmr hqd
      have hb := h.busy_recording r hmr (Or.inr hqd)
      constructor
      · intro r1 h1 hq1
        simp only [onstop, Option.some.injEq] at h1
        subst h1
        simp at hq1
      · intro r1 h1 hb1
        simp only [onstop, Option.some.injEq] at h1
        subst h1
        simp [hin] at hb1
      · intro hc
        exact absurd hb.2 hc
      · exact h.pending_le_one
    · simp only [hqd]
      exact h

/-- Every event keeps the recorder invariant. -/
theorem recorderInv_step (s : State) (e : Event) (h : RecorderInv s) :
    RecorderInv (step s e) := by
  cases e with
  | setInputNickname v => exact recorderInv_of_same s _ h rfl rfl rfl
  | setMessage v => exact recorderInv_of_same s _ h rfl rfl rfl
  | setImageFile f => exact recorderInv_of_same s _ h rfl rfl rfl
  | socketClosed => exact recorderInv_of_same s _ h rfl rfl rfl
  | submitNickname =>
    obtain ⟨a, b, c⟩ := recorder_fields_submitNickname s
    exact recorderInv_of_same s _ h a b c
  | sendMessage =>
    obtain ⟨a, b, c⟩ := recorder_fields_sendMessage s
    exact recorderInv_of_same s _ h a b c
  | sendImage =>
    obtain ⟨a, b, c⟩ := recorder_fields_sendImage s
    exact recorderInv_of_same s _ h a b c
  | message data =>
    obtain ⟨a, b, c⟩ := recorder_fields_onmessage s data
    simp only [step]
    split
    · obtain ⟨a1, b1, c1⟩ := recorder_fields_unmountCleanup (onmessage s data).state
      exact recorderInv_of_same s _ h (a1.trans a) (b1.trans b) (c1.trans c)
    · exact recorderInv_of_same s _ h a b c
  | startRecording type => exact recorderInv_startRecording s type h
  | micSettled o => exact recorderInv_micSettled s o h
  | recorderStopped => exact recorderInv_recorderStopped s h
  | stopRecording =>
    simp only [step, stopRecording]
    cases hmr : s.mediaRecorder with
    | none => exact h
    | some r =>
      dsimp only
      by_cases hst : r.state = RecorderState.inactive
      · rw [if_neg (not_not.mpr hst)]
        exact h
      · have hrec : r.state = RecorderState.recording := by
          cases hs : r.state with
          | inactive => exact absurd hs hst
          | recording => rfl
        rw [if_pos hst]
        exact recorderInv_inactivate s r h hmr hrec
  | trackEnded =>
    simp only [step]
    cases hmr : s.mediaRecorder with
    | none => exact h
    | some r =>
      dsimp only
      by_cases hst : r.state = RecorderState.recording
      · rw [if_pos hst]
        exact recorderInv_inactivate s r h hmr hst
      · rw [if_neg hst]
        exact h
  | socketOpened =>
    simp only [step]
    split
    · split
      · exact recorderInv_of_same s _ h rfl rfl rfl
      · exact h
    · exact h
  | dataavailable chunk =>
    simp only [step, ondataavailable]
    split
    · split
      · split
        · exact recorderInv_of_same s _ h rfl rfl rfl
        · exact h
      · exact h
    · exact h
  | readerDone i now =>
    simp only [step]
    split
    · exact h
    · obtain ⟨a, b, c⟩ := recorder_fields_imageOnload
        { s with readers := s.readers.eraseIdx i } _ _ now
      exact recorderInv_of_same s _ h a b c
    · obtain ⟨a, b, c⟩ := recorder_fields_audioOnloadend
        { s with readers := s.readers.eraseIdx i } _ _ _ now
      exact recorderInv_of_same s _ h a b c

theorem recorderInv_run (s : State) (es : List Event) (h : RecorderInv s) :
    RecorderInv (run s es) := by
  induction es generalizing s with
  | nil => exact h
  | cons e es ih =>
    simp only [run]
    split
    · exact recorderInv_step s e h
    · exact ih (step s e) (recorderInv_step s e h)

/-- The recorder invariant holds in every state the page can be in. -/
theorem recorderInv_of_reachable (s : State) (h : Reachable s) : RecorderInv s := by
  obtain ⟨es, _, rfl⟩ := h
  exact recorderInv_run _ es recorderInv_init

/-- In a state the page can be in that is not recording, no microphone request is
pending. -/
theorem idle_no_pending_request (s : State) (h : Reachable s) (hidle : s.isRecording = false) :
    s.micRequests = [] := by
  by_contra hne
  have := (recorderInv_of_reachable s h).pending_recording hne
  rw [hidle] at this
  exact Bool.noConfusion this

/-- Where the recorder invariant holds and the state is not recording, no recorder is
capturing and none is waiting for its `stop` event. -/
theorem idle_not_busy (s : State) (hinv : RecorderInv s) (hidle : s.isRecording = false) :
    ¬ capturing s ∧ ¬ stopping s := by
  constructor
  · rintro ⟨r, hmr, hst⟩
    have := (hinv.busy_recording r hmr (Or.inl hst)).1
    rw [hidle] at this
    exact Bool.noConfusion this
  · rintro ⟨r, hmr, hq⟩
    have := (hinv.busy_recording r hmr (Or.inr hq)).1
    rw [hidle] at this
    exact Bool.noConfusion this

/-! ## The recorder -/

/-- C9: when no recorder has been created, or the last one is inactive, `stopRecording`
changes nothing: every state field, the socket and the pending reads are as before. -/
theorem stopRecording_idle_noop (s : State)
    (hidle : s.mediaRecorder = none ∨
      ∃ r, s.mediaRecorder = some r ∧ r.state = RecorderState.inactive) :
    stopRecording s = s ∧ step s Event.stopRecording = s := by
  have h : stopRecording s = s := by
    rcases hidle with hnone | ⟨r, hr, hin⟩
    · simp [stopRecording, hnone]
    · simp [stopRecording, hr, hin]
  exact ⟨h, h⟩

/-- C9 at a concrete state: nobody has recorded yet. -/
theorem stopRecording_idle_noop_witness :
    aliceOpen.mediaRecorder = none ∧ (stopRecording aliceOpen).ws = aliceOpen.ws := by
  refine ⟨rfl, ?_⟩
  rw [(stopRecording_idle_noop aliceOpen (Or.inl rfl)).1]

/-- C10: from a state the page can be in that is not recording, a `startRecording` whose
microphone request is rejected, or whose recorder cannot be created or started, ends not
recording: `isRecording` is false, no recorder is capturing or waiting for its `stop`
event, no chunk is held, nothing has been sent and no read started, and the next
`startRecording` is accepted.  When the request itself is rejected every field other than
`recordingType` (now the requested purpose) and `audioChunks` (now empty) is what it
was. -/
theorem startRecording_failure_returns_to_idle (s : State) (purpose next : String)
    (o : MicOutcome) (hreach : Reachable s) (hidle : s.isRecording = false)
    (hfail : o ≠ MicOutcome.started) :
    (run s [Event.startRecording purpose, Event.micSettled o]).isRecording = false ∧
    ¬ capturing (run s [Event.startRecording purpose, Event.micSettled o]) ∧
    ¬ stopping (run s [Event.startRecording purpose, Event.micSettled o]) ∧
    (run s [Event.startRecording purpose, Event.micSettled o]).audioChunks = [] ∧
    (run s [Event.startRecording purpose, Event.micSettled o]).ws = s.ws ∧
    (run s [Event.startRecording purpose, Event.micSettled o]).readers = s.readers ∧
    (run s [Event.startRecording purpose, Event.micSettled o]).micRequests = [] ∧
    (o = MicOutcome.rejected →
      run s [Event.startRecording purpose, Event.micSettled o] =
        { s with recordingType := purpose, audioChunks := [] }) ∧
    (startRecording (run s [Event.startRecording purpose, Event.micSettled o]) next).isRecording
      = true ∧
    (startRecording (run s [Event.startRecording purpose, Event.micSettled o]) next).micRequests
      = [{ type := next, nickname := s.nickname }] := by
  have hreq : s.micRequests = [] := idle_no_pending_request s hreach hidle
  have hinv1 : RecorderInv (run s [Event.startRecording purpose, Event.micSettled o]) :=
    recorderInv_run s _ (recorderInv_of_reachable s hreach)
  have hfalse : (run s [Event.startRecording purpose, Event.micSettled o]).isRecording
      = false := by
    cases o with
    | started => exact absurd rfl hfail
    | rejected => simp [run, unmounts, step, startRecording, hidle, hreq, micSettled, micCatch]
    | recorderFailed => simp [run, unmounts, step, startRecording, hidle, hreq, micSettled, micCatch]
    | startFailed => simp [run, unmounts, step, startRecording, hidle, hreq, micSettled, micCatch]
  have hbusy := idle_not_busy _ hinv1 hfalse
  refine ⟨hfalse, hbusy.1, hbusy.2, ?_⟩
  cases o with
  | started => exact absurd rfl hfail
  | rejected =>
    have hs : run s [Event.startRecording purpose, Event.micSettled MicOutcome.rejected] =
        { s with recordingType := purpose, audioChunks := [] } := by
      cases s
      simp only at hidle hreq
      subst hidle hreq
      simp [run, unmounts, step, startRecording, micSettled, micCatch]
    rw [hs]
    simp [startRecording, hidle, hreq]
  | recorderFailed =>
    have hs : run s [Event.startRecording purpose, Event.micSettled MicOutcome.recorderFailed] =
        { s with recordingType := purpose, audioChunks := [] } := by
      cases s
      simp only at hidle hreq
      subst hidle hreq
      simp [run, unmounts, step, startRecording, micSettled, micCatch]
    rw [hs]
    simp [startRecording, hidle, hreq]
  | startFailed =>
    have hs : run s [Event.startRecording purpose, Event.micSettled MicOutcome.startFailed] =
        { s with
          recordingType := purpose, audioChunks := [],
          mediaRecorder := some (MediaRecorder.mk purpose s.nickname RecorderState.inactive
            false) } := by
      cases s
      simp only at hidle hreq
      subst hidle hreq
      simp [run, unmounts, step, startRecording, micSettled, micCatch]
    rw [hs]
    simp [startRecording, hidle, hreq]

/-- C10 at a concrete input: `alice` asks for dictation and the microphone is refused. -/
theorem startRecording_failure_returns_to_idle_witness :
    Reachable aliceOpen ∧ aliceOpen.isRecording = false ∧
    (run aliceOpen [Event.startRecording "stt",
      Event.micSettled MicOutcome.rejected]).isRecording = false := by
  have hreach : Reachable aliceOpen := ⟨_, by decide, rfl⟩
  exact ⟨hreach, rfl,
    (startRecording_failure_returns_to_idle aliceOpen "stt" "talk" MicOutcome.rejected
      hreach rfl (by decide)).1⟩

/-! ## A whole recording -/

/-- While a recorder is recording, or inactivated with its `stop` event still queued,
delivered chunks are appended in order, the empty ones left out, and nothing else
changes. -/
theorem foldl_step_dataavailable (s : State) (r : MediaRecorder) (cs : List (List Byte))
    (hr : s.mediaRecorder = some r)
    (hact : r.state = RecorderState.recording ∨ r.stopQueued = true) :
    (cs.map Event.dataavailable).foldl step s =
      { s with audioChunks := s.audioChunks ++ cs.filter (fun c => decide (c.length > 0)) } := by
  induction cs generalizing s with
  | nil => simp
  | cons c cs ih =>
    have hrun : ((c :: cs).map Event.dataavailable).foldl step s
        = (cs.map Event.dataavailable).foldl step (step s (Event.dataavailable c)) := rfl
    have hstep : step s (Event.dataavailable c) = ondataavailable s c := by
      simp [step, hr, hact]
    rw [hrun, hstep]
    by_cases hc : c.length > 0
    · have hs1 : (ondataavailable s c).mediaRecorder = some r := by
        simp [ondataavailable, hc, hr]
      rw [ih _ hs1]
      simp [ondataavailable, hc, List.filter]
    · have hs1 : ondataavailable s c = s := by simp [ondataavailable, hc]
      rw [hs1, ih _ hr]
      simp [List.filter, hc]

theorem eraseIdx_length_append_singleton {α : Type} (l : List α) (x : α) :
    (l ++ [x]).eraseIdx l.length = l := by
  induction l with
  | nil => rfl
  | cons a l ih => simp [List.eraseIdx, ih]

/-- C3: from a state the page can be in that is not recording and has the connection open, a granted recording whose recorder delivers the chunks `cs1` and then,
on stop, `cs2`, ends with exactly one new frame on the transport: the audio envelope of
the current nickname whose `message` is `@stt` for purpose `stt` and `@talk` otherwise
and whose `audioData` encodes the concatenation of all chunks in arrival order;
`isRecording` is false afterwards and the recorder is inactive. -/
theorem recording_transmits_one_audio_envelope (s : State) (sock : WebSocket)
    (purpose : String) (cs1 cs2 : List (List Byte)) (now : String)
    (hreach : Reachable s) (hidle : s.isRecording = false)
    (hws : s.ws = some sock) (hopen : sock.readyState = ReadyState.OPEN) :
    run s (recordingSession purpose cs1 cs2 s.readers.length now) =
      { s with
        recordingType := purpose,
        isRecording := false,
        audioChunks := (cs1 ++ cs2).filter (fun c => decide (c.length > 0)),
        mediaRecorder := some (MediaRecorder.mk purpose s.nickname RecorderState.inactive false),
        ws := some
          { sock with
            sendCalls := sock.sendCalls ++
              [audioEnvelope s.nickname purpose (cs1 ++ cs2).flatten now],
            wire := sock.wire ++
              [audioEnvelope s.nickname purpose (cs1 ++ cs2).flatten now] } } ∧
    transmitted (run s (recordingSession purpose cs1 cs2 s.readers.length now)) =
      transmitted s ++ [audioEnvelope s.nickname purpose (cs1 ++ cs2).flatten now] ∧
    (run s (recordingSession purpose cs1 cs2 s.readers.length now)).isRecording = false := by
  have hreq : s.micRequests = [] := idle_no_pending_request s hreach hidle
  have hmain : run s (recordingSession purpose cs1 cs2 s.readers.length now) =
      { s with
        recordingType := purpose,
        isRecording := false,
        audioChunks := (cs1 ++ cs2).filter (fun c => decide (c.length > 0)),
        mediaRecorder := some (MediaRecorder.mk purpose s.nickname RecorderState.inactive false),
        ws := some
          { sock with
            sendCalls := sock.sendCalls ++
              [audioEnvelope s.nickname purpose (cs1 ++ cs2).flatten now],
            wire := sock.wire ++
              [audioEnvelope s.nickname purpose (cs1 ++ cs2).flatten now] } } := by
    have hq : ∀ e ∈ recordingSession purpose cs1 cs2 s.readers.length now,
        quiet e = true := by
      have hall : (recordingSession purpose cs1 cs2 s.readers.length now).all quiet = true := by
        simp [recordingSession, List.all_append, List.all_map, quiet]
      exact fun e he => List.all_eq_true.mp hall e he
    rw [run_of_quiet s _ hq]
    unfold recordingSession
    rw [List.foldl_append, List.foldl_append, List.foldl_append, List.foldl_append]
    have h1 : [Event.startRecording purpose, Event.micSettled MicOutcome.started].foldl step s =
        { s with
          recordingType := purpose, isRecording := true, audioChunks := [],
          mediaRecorder := some
            (MediaRecorder.mk purpose s.nickname RecorderState.recording false) } := by
      cases s
      simp only at hidle hreq
      subst hidle hreq
      simp [step, startRecording, micSettled]
    rw [h1, foldl_step_dataavailable _ (MediaRecorder.mk purpose s.nickname RecorderState.recording false)
      cs1 rfl (Or.inl rfl)]
    have h3 : ∀ t : State,
        t.mediaRecorder = some (MediaRecorder.mk purpose s.nickname RecorderState.recording false) →
        [Event.stopRecording].foldl step t =
          { t with
            mediaRecorder :=
              some (MediaRecorder.mk purpose s.nickname RecorderState.inactive true) } := by
      intro t ht
      simp [step, stopRecording, ht, MediaRecorder.stop]
    rw [h3 _ rfl, foldl_step_dataavailable _
      (MediaRecorder.mk purpose s.nickname RecorderState.inactive true) cs2 rfl (Or.inr rfl)]
    have hget : (s.readers ++ [Reader.audio s.nickname purpose
        (List.filter (fun c => decide (c.length > 0)) cs1 ++
          List.filter (fun c => decide (c.length > 0)) cs2).flatten]).get? s.readers.length =
        some (Reader.audio s.nickname purpose
          (List.filter (fun c => decide (c.length > 0)) cs1 ++
            List.filter (fun c => decide (c.length > 0)) cs2).flatten) := by
      simp
    have hflat : (List.filter (fun c => decide (c.length > 0)) cs1 ++
        List.filter (fun c => decide (c.length > 0)) cs2).flatten = (cs1 ++ cs2).flatten := by
      rw [← List.filter_append, flatten_filter_nonempty]
    simp only [List.foldl_cons, List.foldl_nil, step, onstop, List.nil_append, if_true]
    rw [hget]
    simp only [audioOnloadend, hws, WebSocket.send, hopen, audioEnvelope,
      splitCommaSecond_readAsDataURL "audio/webm" _ (by decide), hflat, List.filter_append]
    simp [eraseIdx_length_append_singleton]
  refine ⟨hmain, ?_, ?_⟩
  · rw [hmain]
    simp [transmitted, hws]
  · rw [hmain]

/-- C3 at a concrete input: `alice` dictates; the recorder delivers two chunks, one of
them empty, while recording and a last one on stop. -/
theorem recording_transmits_one_audio_envelope_witness :
    Reachable aliceOpen ∧ aliceOpen.isRecording = false ∧
    aliceOpen.ws = some (WebSocket.mk "ws://localhost:8000/ws/alice" ReadyState.OPEN [] []) ∧
    transmitted (run aliceOpen
      (recordingSession "stt" [[1, 2], []] [[3]] aliceOpen.readers.length "T")) =
      ["\x7b\"type\":\"audio\",\"nickname\":\"alice\",\"message\":\"@stt\"," ++
        "\"audioData\":\"AQID\",\"timestamp\":\"T\"\x7d"] := by
  have hreach : Reachable aliceOpen := ⟨_, by decide, rfl⟩
  refine ⟨hreach, rfl, rfl, ?_⟩
  rw [(recording_transmits_one_audio_envelope aliceOpen
    (WebSocket.mk "ws://localhost:8000/ws/alice" ReadyState.OPEN [] []) "stt" [[1, 2], []] [[3]]
    "T" hreach rfl rfl rfl).2.1]
  decide

/-! ## Outbound images -/

/-- C5, as stated, fails: with a file selected and a non-blank identity, but the
connection closed, `sendImage` and the completion of its read transmit nothing. -/
theorem sendImage_closed_transmits_nothing :
    aliceClosedWithImage.imageFile = some pngFile ∧
    trim aliceClosedWithImage.nickname = "alice" ∧
    sendImage aliceClosedWithImage ≠ aliceClosedWithImage ∧
    transmitted (run aliceClosedWithImage [Event.sendImage, Event.readerDone 0 "T"]) = [] := by
  refine ⟨rfl, by decide, ?_, by decide⟩
  intro h
  have hr := congrArg (fun t => t.readers.length) h
  revert hr
  decide

/-- C5, amended: `sendImage` is rejected, leaving the state as it was, if and only if no
file is selected or the identity is blank; otherwise it starts a read of the file, and
when that read completes with the connection open exactly one frame is transmitted, the
image envelope with the nickname, the encoded file content as `imageData` and the
timestamp, and the selection is cleared. -/
theorem sendImage_rejects_or_transmits_when_open (s : State) (now : String) :
    (sendImage s = s ↔ s.imageFile = none ∨ trim s.nickname = "") ∧
    (∀ f sock, s.imageFile = some f → trim s.nickname ≠ "" → s.ws = some sock →
      sock.readyState = ReadyState.OPEN →
      run s [Event.sendImage, Event.readerDone s.readers.length now] =
        { s with
          imageFile := none,
          ws := some
            { sock with
              sendCalls := sock.sendCalls ++ [imageEnvelope s.nickname f now],
              wire := sock.wire ++ [imageEnvelope s.nickname f now] } } ∧
      transmitted (run s [Event.sendImage, Event.readerDone s.readers.length now]) =
        transmitted s ++ [imageEnvelope s.nickname f now]) := by
  constructor
  · constructor
    · intro h
      by_contra hcon
      simp only [not_or] at hcon
      obtain ⟨hf, hn⟩ := hcon
      cases hfile : s.imageFile with
      | none => exact hf hfile
      | some f =>
        have hr := congrArg (fun t => t.readers.length) h
        simp [sendImage, hfile, hn] at hr
    · rintro (h | h)
      · simp [sendImage, h]
      · cases hfile : s.imageFile <;> simp [sendImage, hfile, h]
  · intro f sock hfile hn hws hopen
    have hmain : run s [Event.sendImage, Event.readerDone s.readers.length now] =
        { s with
          imageFile := none,
          ws := some
            { sock with
              sendCalls := sock.sendCalls ++ [imageEnvelope s.nickname f now],
              wire := sock.wire ++ [imageEnvelope s.nickname f now] } } := by
      have hget : (s.readers ++ [Reader.image s.nickname f]).get? s.readers.length
          = some (Reader.image s.nickname f) := by simp
      have hrun : run s [Event.sendImage, Event.readerDone s.readers.length now] =
          [Event.sendImage, Event.readerDone s.readers.length now].foldl step s := rfl
      rw [hrun]
      simp only [List.foldl_cons, List.foldl_nil, step, sendImage, hfile, hn, if_false]
      rw [hget]
      simp only [imageOnload, hws, WebSocket.send, hopen, imageEnvelope,
        splitCommaSecond_readAsDataURL f.type f.bytes f.typeOk]
      simp [eraseIdx_length_append_singleton]
    refine ⟨hmain, ?_⟩
    rw [hmain]
    simp [transmitted, hws]

/-- C5 amended, at a concrete input: `alice` sends the picked file on an open connection. -/
theorem sendImage_rejects_or_transmits_when_open_witness :
    aliceOpenWithImage.imageFile = some pngFile ∧
    trim aliceOpenWithImage.nickname ≠ "" ∧
    aliceOpenWithImage.ws =
      some (WebSocket.mk "ws://localhost:8000/ws/alice" ReadyState.OPEN [] []) ∧
    transmitted (run aliceOpenWithImage
      [Event.sendImage, Event.readerDone aliceOpenWithImage.readers.length "T"]) =
      ["\x7b\"type\":\"image\",\"nickname\":\"alice\",\"imageData\":\"iVA=\"," ++
        "\"timestamp\":\"T\"\x7d"] := by
  refine ⟨rfl, by decide, rfl, ?_⟩
  rw [((sendImage_rejects_or_transmits_when_open aliceOpenWithImage "T").2 pngFile
    (WebSocket.mk "ws://localhost:8000/ws/alice" ReadyState.OPEN [] []) rfl (by decide) rfl
    rfl).2]
  decide

/-! ## Sending while the connection is not open -/

/-- C6, the code against the claim: on a closed connection `sendMessage` makes no `send`
call and keeps the typed text, but the completion of `sendImage`'s read and the
completion of a stopped recording's read each call `send` once; nothing reaches the
transport, nothing is raised, and the image selection is cleared. -/
theorem reader_callbacks_send_on_closed_socket :
    Option.map WebSocket.readyState aliceClosedWithImage.ws = some ReadyState.CLOSED ∧
    sendCalls (sendMessage (step aliceClosedWithImage (Event.setMessage "hi"))) = [] ∧
    (sendMessage (step aliceClosedWithImage (Event.setMessage "hi"))).message = "hi" ∧
    sendCalls (run aliceClosedWithImage [Event.sendImage, Event.readerDone 0 "T"]) =
      [imageEnvelope "alice" pngFile "T"] ∧
    transmitted (run aliceClosedWithImage [Event.sendImage, Event.readerDone 0 "T"]) = [] ∧
    (run aliceClosedWithImage [Event.sendImage, Event.readerDone 0 "T"]).imageFile = none ∧
    (imageOnload aliceClosedWithImage "alice" pngFile "T").thrown = none ∧
    Option.map WebSocket.readyState aliceClosedAfterRecording.ws = some ReadyState.CLOSED ∧
    aliceClosedAfterRecording.readers = [Reader.audio "alice" "talk" [1, 2, 3]] ∧
    sendCalls (run aliceClosedAfterRecording [Event.readerDone 0 "T"]) =
      [audioEnvelope "alice" "talk" [1, 2, 3] "T"] ∧
    transmitted (run aliceClosedAfterRecording [Event.readerDone 0 "T"]) = [] ∧
    (audioOnloadend aliceClosedAfterRecording "alice" "talk" [1, 2, 3] "T").thrown = none := by
  refine ⟨by decide, by decide, by decide, by decide, by decide, by decide, by decide,
    by decide, by decide, by decide, by decide, by decide⟩

/-! ## Starting while a recording is under way -/

/-- C4, as stated, fails: while the stopped recording of `aliceFinalising` is still being
read, `startRecording` is accepted: it empties `audioChunks`, overwrites `recordingType`,
sets `isRecording` and issues a new microphone request. -/
theorem startRecording_accepted_while_finalising :
    aliceFinalising.readers = [Reader.audio "alice" "stt" [1, 2, 3]] ∧
    transmitted aliceFinalising = [] ∧
    aliceFinalising.isRecording = false ∧
    (startRecording aliceFinalising "talk").isRecording = true ∧
    aliceFinalising.audioChunks = [[1, 2, 3]] ∧
    (startRecording aliceFinalising "talk").audioChunks = [] ∧
    aliceFinalising.recordingType = "stt" ∧
    (startRecording aliceFinalising "talk").recordingType = "talk" ∧
    (startRecording aliceFinalising "talk").micRequests =
      [MicRequest.mk "talk" "alice"] := by
  refine ⟨by decide, by decide, by decide, by decide, by decide, by decide, by decide,
    by decide, by decide⟩

/-- C4, amended: in every state the page can be in where a recorder has been started and
not yet stopped, or has been stopped with its `stop` event not yet handled,
`isRecording` is true and `startRecording` for any purpose returns the state as it was
(chunks, `recordingType`, `isRecording`, `mediaRecorder` and all other fields), issuing
no microphone request. -/
theorem startRecording_rejected_while_capturing (s : State) (purpose : String)
    (hreach : Reachable s) (hbusy : capturing s ∨ stopping s) :
    s.isRecording = true ∧ startRecording s purpose = s ∧
    step s (Event.startRecording purpose) = s := by
  have hinv := recorderInv_of_reachable s hreach
  have hrec : s.isRecording = true := by
    rcases hbusy with ⟨r, hmr, hst⟩ | ⟨r, hmr, hq⟩
    · exact (hinv.busy_recording r hmr (Or.inl hst)).1
    · exact (hinv.busy_recording r hmr (Or.inr hq)).1
  have hsame : startRecording s purpose = s := by simp [startRecording, hrec]
  exact ⟨hrec, hsame, hsame⟩

/-- C4 amended, at a concrete input: `alice` is dictating and presses a start button. -/
theorem startRecording_rejected_while_capturing_witness :
    Reachable (run State.init [Event.setInputNickname "alice", Event.submitNickname,
      Event.socketOpened, Event.startRecording "stt", Event.micSettled MicOutcome.started,
      Event.dataavailable [1, 2, 3]]) ∧
    capturing (run State.init [Event.setInputNickname "alice", Event.submitNickname,
      Event.socketOpened, Event.startRecording "stt", Event.micSettled MicOutcome.started,
      Event.dataavailable [1, 2, 3]]) ∧
    (run State.init [Event.setInputNickname "alice", Event.submitNickname,
      Event.socketOpened, Event.startRecording "stt", Event.micSettled MicOutcome.started,
      Event.dataavailable [1, 2, 3]]).isRecording = true := by
  have hreach : Reachable (run State.init [Event.setInputNickname "alice",
      Event.submitNickname, Event.socketOpened, Event.startRecording "stt",
      Event.micSettled MicOutcome.started, Event.dataavailable [1, 2, 3]]) :=
    ⟨_, by decide, rfl⟩
  have hcap : capturing (run State.init [Event.setInputNickname "alice",
      Event.submitNickname, Event.socketOpened, Event.startRecording "stt",
      Event.micSettled MicOutcome.started, Event.dataavailable [1, 2, 3]]) :=
    ⟨MediaRecorder.mk "stt" "alice" RecorderState.recording false, by decide, rfl⟩
  exact ⟨hreach, hcap,
    (startRecording_rejected_while_capturing _ "talk" hreach (Or.inl hcap)).1⟩

end Chatbot
